import Mathlib

/-!
Verification of the Lox tree-walking interpreter (`src/`): a shallow
embedding of the parser (`parser.rs`), resolver (`resolver.rs`), evaluator
(`interpreter.rs`), environment model (`environment.rs`) and callable
protocol (`callable.rs`), together with theorems settling the specification
claims about them.

Conventions of the embedding:
* Rust `f64` numbers are modelled as `ℚ` (exact); no settled claim depends
  on rounding or on NaN behaviour.
* `Rc<RefCell<...>>` heap references are modelled with arenas: environments
  and instances live in append-only stores inside the interpreter state and
  are addressed by their index.  A handle is a `Nat`.
* Rust panics (`expect`, `unwrap`, `unreachable!`, arithmetic overflow,
  out-of-fuel) are a distinguished error constructor `RunErr.panic`; Lox
  runtime errors are `RunErr.lox`.
* Recursive-descent parsing, resolution and evaluation are general
  recursion in Rust; they take an explicit fuel argument here.  Exhausted
  fuel is reported as a panic, so every theorem about a successful or
  Lox-failing run is insensitive to the extra fuel.
* The sources under `src/` are snapshots of different stages of the same
  project and do not typecheck together (e.g. `parser.rs` builds
  `Statement::Class { name, methods }` while `interpreter.rs` and
  `resolver.rs` match `Statement::Class { name, superclass, methods }`).
  The embedding uses the richer AST demanded by `interpreter.rs` and
  `resolver.rs`; the parser, embedded exactly as written, simply never
  produces a superclass or a `Super` node.  Each definition's doc comment
  names its source.
-/

namespace Lox

/-- Token kinds, from `grammar.rs` (`enum TokenType`). -/
inductive TokenType
  | LEFT_PAREN | RIGHT_PAREN | LEFT_BRACE | RIGHT_BRACE
  | COMMA | DOT | MINUS | PLUS | SEMICOLON | SLASH | STAR
  | EQUAL | EQUAL_EQUAL | BANG | BANG_EQUAL
  | LESS | LESS_EQUAL | GREATER | GREATER_EQUAL
  | IDENTIFIER | STRING | NUMBER
  | AND | CLASS | ELSE | FALSE | FOR | FUN | IF | NIL | OR
  | PRINT | RETURN | SUPER | THIS | TRUE | VAR | WHILE
  | EOF
  deriving DecidableEq, Repr

/-- Errors, from `error.rs` (`enum LoxError`).  The stale `parser.rs` and
`callable.rs` name their error enum `RuntimeError`, with the same variants
used here (`ParserError` corresponds to `SyntaxError` built by
`LoxError::parser_error`). -/
inductive LoxError
  | SyntaxError (line : Nat) (error_type : String) (lexeme : String) (message : String)
  | TypeError (message : String)
  | UndefinedVariable (name : String) (line : Nat)
  | UndefinedProperty (name : String)
  | ArgumentCountError (expected : Nat) (got : Nat)
  deriving DecidableEq, Repr

/-- `LoxError::parser_error` from `error.rs`. -/
def LoxError.parser_error (line : Nat) (lexeme : String) (message : String) : LoxError :=
  .SyntaxError line "Parser" lexeme message

/-- `LoxError::resolver_error` from `error.rs`. -/
def LoxError.resolver_error (line : Nat) (lexeme : String) (message : String) : LoxError :=
  .SyntaxError line "Resolver" lexeme message

/-- The `thiserror` `Display` rendering of each `LoxError` variant
(`error.rs`, the `#[error("...")]` attributes). -/
def LoxError.display : LoxError → String
  | .SyntaxError line et lexeme msg =>
      "[line " ++ toString line ++ "] " ++ et ++ " Error at \x27" ++ lexeme ++ "\x27: " ++ msg
  | .TypeError m => m
  | .UndefinedVariable name line =>
      "Undefined variable \x27" ++ name ++ "\x27.\n[line " ++ toString line ++ "]"
  | .UndefinedProperty n => "Undefined property \x27" ++ n ++ "\x27."
  | .ArgumentCountError e g =>
      "Expected " ++ toString e ++ " arguments but got " ++ toString g ++ "."

/-- A run-time outcome that Rust does not model as a `Result`: either a
`LoxError` propagated with `?`, or a process-aborting panic
(`expect`/`unwrap`/`unreachable!`/arithmetic overflow), or exhausted fuel
of the embedding (also reported as a panic). -/
inductive RunErr
  | lox (e : LoxError)
  | panic (message : String)
  deriving DecidableEq, Repr

mutual

/-- Values and AST, one mutual family because `Expression::Literal` embeds a
`Literal` and a `Literal` can hold callables whose declarations are
statements.  Sources: `grammar.rs` (`Literal`, `Token`, `Expression`,
`Statement`, `Function`) as used by `interpreter.rs`/`resolver.rs`, and
`callable.rs` (`LoxFunction`, `LoxClass`); the `dyn LoxCallable` behind
`Literal::Function` is either the native `clock` or a `LoxFunction`
(`CallableV`).  `Literal::Instance` holds an arena address. -/
inductive Literal : Type
  | Boolean (b : Bool)
  | String (s : String)
  | Number (n : ℚ)
  | Nil
  | Function (c : CallableV)
  | Class (k : LoxClass)
  | Instance (addr : Nat)

/-- The two shapes behind `Rc<dyn LoxCallable>` stored in a `Literal`:
the native `clock` (`callable.rs`, `Native`) or a user function. -/
inductive CallableV : Type
  | Native (arity : Nat)
  | Fn (f : LoxFunction)

/-- `LoxFunction` from `callable.rs`: declaration, closure environment
handle, and the initializer flag. -/
inductive LoxFunction : Type
  | mk (declaration : Function) (closure : Nat) (is_initializer : Bool)

/-- `LoxClass` from `callable.rs`, with the `superclass` field that
`interpreter.rs` passes to `LoxClass::new` (the stale `callable.rs`
declaration omits it; see the C2 analysis). -/
inductive LoxClass : Type
  | mk (name : String) (superclass : Option LoxClass)
      (methods : List (String × LoxFunction))

/-- `Token` from `grammar.rs`. -/
inductive Token : Type
  | mk (token_type : TokenType) (lexeme : String) (literal : Option Literal) (line : Nat)

/-- `Function` (the AST function declaration) from `grammar.rs`. -/
inductive Function : Type
  | mk (name : Token) (params : List Token) (body : List Statement)

/-- `Expression` from `grammar.rs` as used by `parser.rs`, `resolver.rs`
and `interpreter.rs`: `Variable`/`Assign`/`This`/`Super` carry the
parse-time id used as the resolution-table key. -/
inductive Expression : Type
  | Assign (id : Nat) (name : Token) (value : Expression)
  | Binary (left : Expression) (op : Token) (right : Expression)
  | Call (callee : Expression) (arguments : List Expression)
  | Grouping (e : Expression)
  | Literal (l : Literal)
  | Logical (left : Expression) (op : Token) (right : Expression)
  | Set (object : Expression) (name : Token) (value : Expression)
  | Super (id : Nat) (keyword : Token) (method : Token)
  | This (id : Nat) (keyword : Token)
  | Unary (op : Token) (right : Expression)
  | Variable (id : Nat) (name : Token)
  | Get (object : Expression) (name : Token)

/-- `Statement` from `grammar.rs` as used by `resolver.rs` and
`interpreter.rs`. -/
inductive Statement : Type
  | Block (statements : List Statement)
  | Class (name : Token) (superclass : Option Expression) (methods : List Function)
  | Expression (e : Expression)
  | If (condition : Expression) (then_branch : Statement) (else_branch : Option Statement)
  | Print (e : Expression)
  | Variable (name : Token) (init : Option Expression)
  | While (condition : Expression) (body : Statement)
  | Function (f : Function)
  | Return (keyword : Token) (value : Option Expression)

end

/-- `std::ops::ControlFlow<Literal>` as used by `Interpreter::execute`:
either fall through to the next statement or unwind with a `return` value. -/
inductive Flow : Type
  | Continue
  | Break (value : Literal)

/-- Field projection for the mutual inductive `Token`. -/
def Token.token_type : Token → TokenType
  | .mk tt _ _ _ => tt

/-- Field projection for the mutual inductive `Token`. -/
def Token.lexeme : Token → String
  | .mk _ lx _ _ => lx

/-- Field projection for the mutual inductive `Token`. -/
def Token.literal : Token → Option Literal
  | .mk _ _ l _ => l

/-- Field projection for the mutual inductive `Token`. -/
def Token.line : Token → Nat
  | .mk _ _ _ ln => ln

/-- Field projection for the mutual inductive `Function`. -/
def Function.name : Function → Token
  | .mk n _ _ => n

/-- Field projection for the mutual inductive `Function`. -/
def Function.params : Function → List Token
  | .mk _ p _ => p

/-- Field projection for the mutual inductive `Function`. -/
def Function.body : Function → List Statement
  | .mk _ _ b => b

/-- Field projection for the mutual inductive `LoxFunction`. -/
def LoxFunction.declaration : LoxFunction → Function
  | .mk d _ _ => d

/-- Field projection for the mutual inductive `LoxFunction`. -/
def LoxFunction.closure : LoxFunction → Nat
  | .mk _ c _ => c

/-- Field projection for the mutual inductive `LoxFunction`. -/
def LoxFunction.is_initializer : LoxFunction → Bool
  | .mk _ _ i => i

/-- `LoxFunction::name` from `callable.rs`. -/
def LoxFunction.name (f : LoxFunction) : String :=
  f.declaration.name.lexeme

/-- Field projection for the mutual inductive `LoxClass`. -/
def LoxClass.name : LoxClass → String
  | .mk n _ _ => n

/-- Field projection for the mutual inductive `LoxClass`. -/
def LoxClass.superclass : LoxClass → Option LoxClass
  | .mk _ s _ => s

/-- Field projection for the mutual inductive `LoxClass`. -/
def LoxClass.methods : LoxClass → List (String × LoxFunction)
  | .mk _ _ m => m


/-- `HashMap::get` on the association-list model of a map. -/
def lookupAssoc {κ α : Type} [DecidableEq κ] : List (κ × α) → κ → Option α
  | [], _ => none
  | (k', v) :: rest, k => if k' = k then some v else lookupAssoc rest k

/-- `HashMap::insert` on the association-list model of a map: replace the
binding if the key is present, else append it. -/
def insertAssoc {κ α : Type} [DecidableEq κ] : List (κ × α) → κ → α → List (κ × α)
  | [], k, v => [(k, v)]
  | (k', v') :: rest, k, v =>
      if k' = k then (k, v) :: rest else (k', v') :: insertAssoc rest k v

/-- One `EnvironmentImpl` from `environment.rs`: the local name→value map
and the optional handle of the enclosing environment. -/
structure Frame where
  values : List (String × Literal)
  parent : Option Nat
  deriving Inhabited

/-- `LoxInstance` from `callable.rs`: its class and its mutable field map. -/
structure LoxInstance where
  klass : LoxClass
  fields : List (String × Literal)

/-- The `Interpreter` from `interpreter.rs` (`globals`, `environment`,
`locals`), extended with the two arenas that model the `Rc<RefCell<...>>`
heap (`envs` for environments, `insts` for instances) and with the `output`
log modelling stdout. -/
structure Interpreter where
  envs : List Frame
  insts : List LoxInstance
  globals : Nat
  environment : Nat
  locals : List (Nat × Nat)
  output : List String

/-- Dereference an environment handle.  In Rust an `Rc<RefCell<...>>` can
never dangle; every handle the interpreter manufactures is in range, so the
default is irrelevant. -/
def frameOf (envs : List Frame) (h : Nat) : Frame :=
  (envs.get? h).getD default

/-- Replace the frame at a handle. -/
def setFrame (envs : List Frame) (h : Nat) (fr : Frame) : List Frame :=
  envs.set h fr

/-- `Environment::new` from `environment.rs`: allocate a fresh root frame,
returning its handle. -/
def Environment.new (st : Interpreter) : Interpreter × Nat :=
  ({ st with envs := st.envs ++ [⟨[], none⟩] }, st.envs.length)

/-- `Environment::new_enclosed` from `environment.rs`. -/
def Environment.new_enclosed (st : Interpreter) (enclosing : Nat) : Interpreter × Nat :=
  ({ st with envs := st.envs ++ [⟨[], some enclosing⟩] }, st.envs.length)

/-- `EnvironmentImpl::define` from `environment.rs`, on the store. -/
def Environment.define (envs : List Frame) (h : Nat) (name : String) (v : Literal) :
    List Frame :=
  setFrame envs h { frameOf envs h with values := insertAssoc (frameOf envs h).values name v }

/-- The recursion of `EnvironmentImpl::get` from `environment.rs`, with
fuel for the walk up the parent chain (the chains the interpreter builds
are strictly index-decreasing, so `envs.length + 1` steps always suffice;
running out is reported as divergence). -/
def Environment.getGo (envs : List Frame) : Nat → Nat → Token → Except RunErr Literal
  | 0, _, _ => .error (.panic "environment parent chain does not terminate")
  | fuel + 1, h, tok =>
      match lookupAssoc (frameOf envs h).values tok.lexeme with
      | some v => .ok v
      | none =>
          match (frameOf envs h).parent with
          | some p => Environment.getGo envs fuel p tok
          | none => .error (.lox (.UndefinedVariable tok.lexeme tok.line))

/-- `Environment::get` from `environment.rs`. -/
def Environment.get (envs : List Frame) (h : Nat) (tok : Token) : Except RunErr Literal :=
  Environment.getGo envs (envs.length + 1) h tok

/-- The recursion of `EnvironmentImpl::assign` from `environment.rs`
(fuel as in `Environment.getGo`). -/
def Environment.assignGo (envs : List Frame) :
    Nat → Nat → Token → Literal → Except RunErr (List Frame)
  | 0, _, _, _ => .error (.panic "environment parent chain does not terminate")
  | fuel + 1, h, tok, v =>
      if (lookupAssoc (frameOf envs h).values tok.lexeme).isSome then
        .ok (Environment.define envs h tok.lexeme v)
      else
        match (frameOf envs h).parent with
        | some p => Environment.assignGo envs fuel p tok v
        | none => .error (.lox (.UndefinedVariable tok.lexeme tok.line))

/-- `Environment::assign` from `environment.rs`. -/
def Environment.assign (envs : List Frame) (h : Nat) (tok : Token) (v : Literal) :
    Except RunErr (List Frame) :=
  Environment.assignGo envs (envs.length + 1) h tok v

/-- `Environment::ancestor` from `environment.rs`: walk `distance` parent
links; a missing parent is the panic
`expect("No parent environment found")`. -/
def Environment.ancestor (envs : List Frame) (h : Nat) : Nat → Except RunErr Nat
  | 0 => .ok h
  | d + 1 =>
      match (frameOf envs h).parent with
      | some p => Environment.ancestor envs p d
      | none => .error (.panic "No parent environment found")

/-- `EnvironmentImpl::get_from_local` from `environment.rs`: read the local
map only, defaulting to `Nil`. -/
def Environment.get_from_local (envs : List Frame) (h : Nat) (name : String) : Literal :=
  (lookupAssoc (frameOf envs h).values name).getD .Nil

/-- `Environment::get_at` from `environment.rs`. -/
def Environment.get_at (envs : List Frame) (h : Nat) (distance : Nat) (name : String) :
    Except RunErr Literal :=
  match Environment.ancestor envs h distance with
  | .ok a => .ok (Environment.get_from_local envs a name)
  | .error e => .error e

/-- `Environment::assign_at` from `environment.rs`
(`assign_to_local` inserts unconditionally). -/
def Environment.assign_at (envs : List Frame) (h : Nat) (distance : Nat) (name : String)
    (v : Literal) : Except RunErr (List Frame) :=
  match Environment.ancestor envs h distance with
  | .ok a => .ok (Environment.define envs a name v)
  | .error e => .error e

/-- Allocate a fresh instance (`Rc::new(RefCell::new(instance))`),
returning its address. -/
def instAlloc (st : Interpreter) (i : LoxInstance) : Interpreter × Nat :=
  ({ st with insts := st.insts ++ [i] }, st.insts.length)

/-- Dereference an instance address (total for the same reason as
`frameOf`; the default class is irrelevant). -/
def instOf (st : Interpreter) (addr : Nat) : LoxInstance :=
  (st.insts.get? addr).getD ⟨⟨"", none, []⟩, []⟩

/-- `LoxInstance::set` from `callable.rs`, at an address of the arena. -/
def instSetField (st : Interpreter) (addr : Nat) (name : String) (v : Literal) :
    Interpreter :=
  { st with
    insts := st.insts.set addr
      { instOf st addr with fields := insertAssoc (instOf st addr).fields name v } }

/-- The lookup of the resolution table `locals : HashMap<usize, usize>`
(`interpreter.rs`), on the association-list model. -/
def lookupTable (t : List (Nat × Nat)) (id : Nat) : Option Nat :=
  lookupAssoc t id

/-- `Interpreter::resolve` from `interpreter.rs`: `locals.insert(id, depth)`. -/
def insertTable (t : List (Nat × Nat)) (id : Nat) (depth : Nat) : List (Nat × Nat) :=
  insertAssoc t id depth

/-- `Literal::is_truthy` from `grammar.rs`. -/
def Literal.is_truthy : Literal → Bool
  | .Boolean b => b
  | .Nil => false
  | _ => true

/-- `f64::trunc` on the rational model: truncation toward zero
(`Int.tdiv` rounds toward zero). -/
def ratTrunc (q : ℚ) : ℤ :=
  Int.tdiv q.num q.den

/-- Rust's `Display` for `f64` on the rational model: an integral value
prints with no fractional part (`3.0` prints as `3`); a non-integral value
prints sign, integer part, point, and the fractional digits.  Source
literals are terminating decimals, for which this is exactly Rust's
shortest-round-trip rendering; no settled claim evaluates it elsewhere. -/
def fmtF64 (q : ℚ) : String :=
  if q.den = 1 then toString q.num
  else
    let sign := if q < 0 then "-" else ""
    let a : ℚ := |q|
    sign ++ toString (ratTrunc a) ++ "." ++ fracDigits (a - (ratTrunc a : ℚ)) 30
where
  /-- Decimal digits of a fractional part, 30 digits of fuel. -/
  fracDigits : ℚ → Nat → String
    | _, 0 => ""
    | r, fuel + 1 =>
        if r = 0 then ""
        else
          let r10 := r * 10
          toString (ratTrunc r10) ++ fracDigits (r10 - (ratTrunc r10 : ℚ)) fuel

/-- `LoxCallable::to_string` from `callable.rs` for the two callable
shapes: `"<native fn>"` for `Native`, `"<fn NAME>"` for `LoxFunction`. -/
def CallableV.to_string : CallableV → String
  | .Native _ => "<native fn>"
  | .Fn f => "<fn " ++ f.name ++ ">"

/-- The `fmt::Display` for `Literal` from `grammar.rs` (lines 115–132):
booleans and strings verbatim, `nil`, numbers with a forced `.0` when
`n.trunc() == n`, and callables through `to_string`.  The class and
instance renderings are `LoxClass::to_string`/`LoxInstance::to_string`
from `callable.rs`; the instance case reads the class name through the
arena, hence the store argument. -/
def displayLiteral (insts : List LoxInstance) : Literal → String
  | .Boolean b => if b then "true" else "false"
  | .String s => s
  | .Number n =>
      if (ratTrunc n : ℚ) = n then toString (ratTrunc n) ++ ".0" else fmtF64 n
  | .Nil => "nil"
  | .Function c => c.to_string
  | .Class k => k.name
  | .Instance addr => ((insts.get? addr).getD ⟨⟨"", none, []⟩, []⟩).klass.name ++ " instance"

/-- `PartialEq` on `Literal`.  The primitive cases are the derived
structural equality from `grammar.rs`; numbers compare exactly on the
rational model (the spec notes `NaN == NaN` is true under the reference's
structural equality, so the exact model agrees on every representable
comparison a claim exercises).  Modelled from the spec: the spec gives
functions, classes and instances reference identity — instances compare by
arena address; function and class values, embedded by value, conservatively
compare unequal (no claim depends on them). -/
def litEq : Literal → Literal → Bool
  | .Boolean a, .Boolean b => a == b
  | .String a, .String b => a == b
  | .Number a, .Number b => a == b
  | .Nil, .Nil => true
  | .Instance a, .Instance b => a == b
  | _, _ => false

/-- `compare_number` from `interpreter.rs`. -/
def compare_number (op : TokenType) (l r : ℚ) : Bool :=
  match op with
  | .EQUAL_EQUAL => l == r
  | .BANG_EQUAL => l != r
  | .LESS => decide (l < r)
  | .LESS_EQUAL => decide (l ≤ r)
  | .GREATER => decide (l > r)
  | .GREATER_EQUAL => decide (l ≥ r)
  | _ => false

/-- Constants from `constants.rs`. -/
def THIS_KEYWORD : String := "this"

/-- Constants from `constants.rs`. -/
def SUPER_KEYWORD : String := "super"

/-- Constants from `constants.rs`. -/
def INIT_METHOD : String := "init"

/-- `constants.rs` line 6. -/
def OPERANDS_MUST_BE_NUMBERS : String := "Operands must be numbers."

/-- `constants.rs` line 7 — note the wording: no "two". -/
def OPERANDS_MUST_BE_NUMBERS_OR_STRINGS : String := "Operands must be numbers or strings."

/-- `constants.rs` line 8. -/
def ONLY_INSTANCES_HAVE_FIELDS : String := "Only instances have fields."

/-- `constants.rs` line 9. -/
def RETURN_FROM_INITIALIZER : String := "Can\x27t return a value from an initializer."

/-- `constants.rs` line 10. -/
def RETURN_FROM_TOP_LEVEL : String := "Can\x27t return from top-level code."

/-- `constants.rs` line 11. -/
def THIS_OUTSIDE_CLASS : String := "Can\x27t use \x27this\x27 outside of a class."

/-- `constants.rs` line 12. -/
def SUPER_OUTSIDE_CLASS : String := "Can\x27t use \x27super\x27 outside of a class."

/-- `constants.rs` line 13. -/
def SUPER_WITHOUT_SUPERCLASS : String :=
  "Can\x27t use \x27super\x27 in a class with no superclass."

/-- `constants.rs` line 14. -/
def CLASS_INHERIT_SELF : String := "A class can\x27t inherit from itself."

/-- `constants.rs` lines 15–16. -/
def VARIABLE_IN_OWN_INITIALIZER : String :=
  "Can\x27t read local variable in its own initializer."

/-- `constants.rs` line 17. -/
def DUPLICATE_VARIABLE : String := "Already a variable with this name in this scope."

/-- `LoxClass::find_method` from `callable.rs` (lines 140–145), exactly as
written: it consults only the class's own `methods` map and never the
superclass. -/
def LoxClass.find_method (k : LoxClass) (name : String) : Option LoxFunction :=
  lookupAssoc k.methods name

/-- `LoxFunction::bind` from `callable.rs`: a fresh environment enclosing
the method's closure, with `this` defined as the given instance address;
`is_initializer` is preserved.  (The Rust signature returns an
`InterpreterResult` but never errs.) -/
def LoxFunction.bind (st : Interpreter) (f : LoxFunction) (addr : Nat) :
    Interpreter × LoxFunction :=
  let (st1, h) := Environment.new_enclosed st f.closure
  let st2 := { st1 with envs := Environment.define st1.envs h "this" (.Instance addr) }
  (st2, ⟨f.declaration, h, f.is_initializer⟩)

/-- `LoxInstance::get` from `callable.rs` (lines 192–203): a field hit
returns the field; otherwise a method hit **clones the instance into a
fresh `Rc`** (`Rc::new(RefCell::new(self.clone()))`) and binds the method
to the clone; otherwise `Undefined property 'NAME'.`. -/
def LoxInstance.get (st : Interpreter) (i : LoxInstance) (name : Token) :
    Interpreter × Except RunErr Literal :=
  match lookupAssoc i.fields name.lexeme with
  | some v => (st, .ok v)
  | none =>
      match i.klass.find_method name.lexeme with
      | some m =>
          let (st1, addr) := instAlloc st i
          let (st2, bound) := m.bind st1 addr
          (st2, .ok (.Function (.Fn bound)))
      | none => (st, .error (.lox (.UndefinedProperty name.lexeme)))

/-- `LoxCallable::arity` from `callable.rs` for the two callable shapes. -/
def CallableV.arity : CallableV → Nat
  | .Native a => a
  | .Fn f => f.declaration.params.length

/-- `LoxClass::arity` from `callable.rs`: the arity of `init` if present,
else 0. -/
def LoxClass.arity (k : LoxClass) : Nat :=
  match k.find_method "init" with
  | some i => i.declaration.params.length
  | none => 0

/-- `Interpreter::lookup_variable` from `interpreter.rs` (lines 319–325):
a resolved id reads at its depth from the current environment, an
unresolved one falls back to a global lookup. -/
def lookupVariable (st : Interpreter) (id : Nat) (name : Token) : Except RunErr Literal :=
  match lookupTable st.locals id with
  | some depth => Environment.get_at st.envs st.environment depth name.lexeme
  | none => Environment.get st.envs st.globals name

/-- Parameter binding of `LoxFunction::call` from `callable.rs`:
`params.iter().zip(arguments)` defines each parameter in the call frame
(`zip` stops at the shorter list; the caller has already checked arity). -/
def bindParams (st : Interpreter) (h : Nat) :
    List Token → List Literal → Interpreter
  | [], _ => st
  | _, [] => st
  | p :: ps, a :: rest =>
      bindParams { st with envs := Environment.define st.envs h p.lexeme a } h ps rest

mutual

/-- `Interpreter::evaluate` from `interpreter.rs`.  The native `clock` is
modelled as returning `Number 0`: wall-clock time is outside the
embedding and no claim observes it. -/
def evaluate : Nat → Interpreter → Expression → Interpreter × Except RunErr Literal
  | 0, st, _ => (st, .error (.panic "out of fuel"))
  | fuel + 1, st, e =>
    match e with
    | .Assign id name value =>
        match evaluate fuel st value with
        | (st1, .error er) => (st1, .error er)
        | (st1, .ok v) =>
            match lookupTable st1.locals id with
            | some distance =>
                match Environment.assign_at st1.envs st1.environment distance
                    name.lexeme v with
                | .ok envs1 => ({ st1 with envs := envs1 }, .ok v)
                | .error er => (st1, .error er)
            | none =>
                match Environment.assign st1.envs st1.globals name v with
                | .ok envs1 => ({ st1 with envs := envs1 }, .ok v)
                | .error er => (st1, .error er)
    | .Binary left op right =>
        match evaluate fuel st left with
        | (st1, .error er) => (st1, .error er)
        | (st1, .ok l) =>
            match evaluate fuel st1 right with
            | (st2, .error er) => (st2, .error er)
            | (st2, .ok r) =>
                match op.token_type with
                | .STAR =>
                    match l, r with
                    | .Number a, .Number b => (st2, .ok (.Number (a * b)))
                    | _, _ => (st2, .error (.lox (.TypeError OPERANDS_MUST_BE_NUMBERS)))
                | .SLASH =>
                    match l, r with
                    | .Number a, .Number b => (st2, .ok (.Number (a / b)))
                    | _, _ => (st2, .error (.lox (.TypeError OPERANDS_MUST_BE_NUMBERS)))
                | .PLUS =>
                    match l, r with
                    | .Number a, .Number b => (st2, .ok (.Number (a + b)))
                    | .String a, .String b => (st2, .ok (.String (a ++ b)))
                    | _, _ =>
                        (st2, .error (.lox (.TypeError OPERANDS_MUST_BE_NUMBERS_OR_STRINGS)))
                | .MINUS =>
                    match l, r with
                    | .Number a, .Number b => (st2, .ok (.Number (a - b)))
                    | _, _ => (st2, .error (.lox (.TypeError OPERANDS_MUST_BE_NUMBERS)))
                | .LESS | .LESS_EQUAL | .GREATER | .GREATER_EQUAL =>
                    match l, r with
                    | .Number a, .Number b =>
                        (st2, .ok (.Boolean (compare_number op.token_type a b)))
                    | _, _ => (st2, .error (.lox (.TypeError OPERANDS_MUST_BE_NUMBERS)))
                | .EQUAL_EQUAL => (st2, .ok (.Boolean (litEq l r)))
                | .BANG_EQUAL => (st2, .ok (.Boolean (!litEq l r)))
                | _ => (st2, .error (.panic "not implemented"))
    | .Call callee arguments =>
        match evaluate fuel st callee with
        | (st1, .error er) => (st1, .error er)
        | (st1, .ok cv) =>
            match evalArgs fuel st1 arguments with
            | (st2, .error er) => (st2, .error er)
            | (st2, .ok args) =>
                match cv with
                | .Function c =>
                    if args.length ≠ c.arity then
                      (st2, .error (.lox (.ArgumentCountError c.arity args.length)))
                    else
                      match c with
                      | .Native _ => (st2, .ok (.Number 0))
                      | .Fn f => funCall fuel st2 f args
                | .Class k =>
                    if args.length ≠ k.arity then
                      (st2, .error (.lox (.ArgumentCountError k.arity args.length)))
                    else classCall fuel st2 k args
                | _ =>
                    (st2, .error (.lox (.TypeError "Can only call functions and classes.")))
    | .Get object name =>
        match evaluate fuel st object with
        | (st1, .error er) => (st1, .error er)
        | (st1, .ok ov) =>
            match ov with
            | .Instance addr => LoxInstance.get st1 (instOf st1 addr) name
            | _ => (st1, .error (.lox (.TypeError ONLY_INSTANCES_HAVE_FIELDS)))
    | .Grouping g => evaluate fuel st g
    | .Literal l => (st, .ok l)
    | .Logical left op right =>
        match evaluate fuel st left with
        | (st1, .error er) => (st1, .error er)
        | (st1, .ok l) =>
            let lt := l.is_truthy
            match op.token_type with
            | .OR => if !lt then evaluate fuel st1 right else (st1, .ok l)
            | .AND => if lt then evaluate fuel st1 right else (st1, .ok l)
            | _ => (st1, .error (.panic "internal error: entered unreachable code"))
    | .Set object name value =>
        match evaluate fuel st object with
        | (st1, .error er) => (st1, .error er)
        | (st1, .ok ov) =>
            match ov with
            | .Instance addr =>
                match evaluate fuel st1 value with
                | (st2, .error er) => (st2, .error er)
                | (st2, .ok v) => (instSetField st2 addr name.lexeme v, .ok v)
            | _ => (st1, .error (.lox (.TypeError ONLY_INSTANCES_HAVE_FIELDS)))
    | .Super id _keyword method =>
        match lookupTable st.locals id with
        | none => (st, .error (.panic "Super expression not resolved"))
        | some distance =>
            match Environment.get_at st.envs st.environment distance SUPER_KEYWORD with
            | .error er => (st, .error er)
            | .ok sv =>
                match sv with
                | .Class superklass =>
                    if distance = 0 then
                      (st, .error (.panic "attempt to subtract with overflow"))
                    else
                      match Environment.get_at st.envs st.environment (distance - 1)
                          THIS_KEYWORD with
                      | .error er => (st, .error er)
                      | .ok tv =>
                          match tv with
                          | .Instance objAddr =>
                              match superklass.find_method method.lexeme with
                              | none =>
                                  (st, .error (.lox (.TypeError
                                    ("Undefined property \x27" ++ method.lexeme ++ "\x27."))))
                              | some m =>
                                  let (st1, bound) := m.bind st objAddr
                                  (st1, .ok (.Function (.Fn bound)))
                          | _ =>
                              (st, .error (.lox (.TypeError
                                "\x27this\x27 reference must be an instance.")))
                | _ => (st, .error (.lox (.TypeError "Super reference must be a class.")))
    | .This id keyword => (st, lookupVariable st id keyword)
    | .Unary op right =>
        match evaluate fuel st right with
        | (st1, .error er) => (st1, .error er)
        | (st1, .ok v) =>
            match op.token_type with
            | .BANG => (st1, .ok (.Boolean (!v.is_truthy)))
            | .MINUS =>
                match v with
                | .Number n => (st1, .ok (.Number (-n)))
                | _ => (st1, .error (.lox (.TypeError "Operand must be a number.")))
            | _ => (st1, .error (.panic "internal error: entered unreachable code"))
    | .Variable id name => (st, lookupVariable st id name)
  termination_by structural fuel _x1 _x2 => fuel

/-- The argument loop of the `Call` arm:
`arguments.iter().map(|arg| self.evaluate(arg)).collect::<Result<Vec<_>>>()`
evaluates left to right and stops at the first error. -/
def evalArgs : Nat → Interpreter → List Expression →
    Interpreter × Except RunErr (List Literal)
  | 0, st, _ => (st, .error (.panic "out of fuel"))
  | _ + 1, st, [] => (st, .ok [])
  | fuel + 1, st, e :: rest =>
      match evaluate fuel st e with
      | (st1, .error er) => (st1, .error er)
      | (st1, .ok v) =>
          match evalArgs fuel st1 rest with
          | (st2, .error er) => (st2, .error er)
          | (st2, .ok vs) => (st2, .ok (v :: vs))
  termination_by structural fuel _x1 _x2 => fuel

/-- `Interpreter::execute` from `interpreter.rs`. -/
def execute : Nat → Interpreter → Statement → Interpreter × Except RunErr Flow
  | 0, st, _ => (st, .error (.panic "out of fuel"))
  | fuel + 1, st, s =>
    match s with
    | .Block statements =>
        let (st1, env) := Environment.new_enclosed st st.environment
        executeBlock fuel st1 statements env
    | .Class name superclass methods =>
        match
          ((match superclass with
            | some e =>
                (match evaluate fuel st e with
                 | (st1, .ok (.Class k)) => (st1, .ok (some k))
                 | (st1, .ok _) =>
                     (st1, .error (.lox (.TypeError "Superclass must be a class.")))
                 | (st1, .error er) => (st1, .error er))
            | none => (st, .ok none)) :
            Interpreter × Except RunErr (Option LoxClass)) with
        | (st1, .error er) => (st1, .error er)
        | (st1, .ok superclassV) =>
            let st2 := { st1 with
              envs := Environment.define st1.envs st1.environment name.lexeme .Nil }
            let st3 :=
              match superclassV with
              | some k =>
                  let (sta, h) := Environment.new_enclosed st2 st2.environment
                  { sta with
                    environment := h,
                    envs := Environment.define sta.envs h SUPER_KEYWORD (.Class k) }
              | none => st2
            let methodsMap := methods.foldl
              (fun acc m => insertAssoc acc m.name.lexeme
                (LoxFunction.mk m st3.environment (m.name.lexeme == INIT_METHOD))) []
            match
              (if superclassV.isSome then
                 Environment.ancestor st3.envs st3.environment 1
               else .ok st3.environment) with
            | .error er => (st3, .error er)
            | .ok h2 =>
                let st4 := { st3 with environment := h2 }
                let klass := LoxClass.mk name.lexeme superclassV methodsMap
                match Environment.assign st4.envs st4.environment name (.Class klass) with
                | .ok envs1 => ({ st4 with envs := envs1 }, .ok .Continue)
                | .error er => (st4, .error er)
    | .Expression e =>
        match evaluate fuel st e with
        | (st1, .error er) => (st1, .error er)
        | (st1, .ok _) => (st1, .ok .Continue)
    | .If condition then_branch else_branch =>
        match evaluate fuel st condition with
        | (st1, .error er) => (st1, .error er)
        | (st1, .ok c) =>
            if c.is_truthy then execute fuel st1 then_branch
            else
              match else_branch with
              | some eb => execute fuel st1 eb
              | none => (st1, .ok .Continue)
    | .Print e =>
        match evaluate fuel st e with
        | (st1, .error er) => (st1, .error er)
        | (st1, .ok v) =>
            match v with
            | .Number n => ({ st1 with output := st1.output ++ [fmtF64 n] }, .ok .Continue)
            | _ =>
                ({ st1 with output := st1.output ++ [displayLiteral st1.insts v] },
                 .ok .Continue)
    | .Variable name init =>
        match
          (match init with
           | some e => evaluate fuel st e
           | none => (st, .ok .Nil)) with
        | (st1, .error er) => (st1, .error er)
        | (st1, .ok v) =>
            ({ st1 with
               envs := Environment.define st1.envs st1.environment name.lexeme v },
             .ok .Continue)
    | .While condition body =>
        match evaluate fuel st condition with
        | (st1, .error er) => (st1, .error er)
        | (st1, .ok c) =>
            if c.is_truthy then
              match execute fuel st1 body with
              | (st2, .error er) => (st2, .error er)
              | (st2, .ok (.Break rv)) => (st2, .ok (.Break rv))
              | (st2, .ok .Continue) => execute fuel st2 (.While condition body)
            else (st1, .ok .Continue)
    | .Function f =>
        let fn := LoxFunction.mk f st.environment false
        ({ st with
           envs := Environment.define st.envs st.environment fn.name
             (.Function (.Fn fn)) },
         .ok .Continue)
    | .Return _keyword value =>
        match
          (match value with
           | some e => evaluate fuel st e
           | none => (st, .ok .Nil)) with
        | (st1, .error er) => (st1, .error er)
        | (st1, .ok rv) => (st1, .ok (.Break rv))
  termination_by structural fuel _x1 _x2 => fuel

/-- `Interpreter::execute_block` from `interpreter.rs` (lines 152–166):
swap in the block environment (`std::mem::replace`), run the statements,
and restore the saved handle — note the code restores only on the `Ok`
paths; the `?` on `self.execute(statement)` propagates an error without
restoring. -/
def executeBlock : Nat → Interpreter → List Statement → Nat →
    Interpreter × Except RunErr Flow
  | 0, st, _, _ => (st, .error (.panic "out of fuel"))
  | fuel + 1, st, statements, env =>
      executeBlockGo fuel st.environment { st with environment := env } statements
  termination_by structural fuel _x1 _x2 _x3 => fuel

/-- The statement loop of `Interpreter::execute_block`; `prev` is the
handle saved by `std::mem::replace`. -/
def executeBlockGo : Nat → Nat → Interpreter → List Statement →
    Interpreter × Except RunErr Flow
  | 0, _, st, _ => (st, .error (.panic "out of fuel"))
  | _ + 1, prev, st, [] => ({ st with environment := prev }, .ok .Continue)
  | fuel + 1, prev, st, s :: rest =>
      match execute fuel st s with
      | (st1, .error er) => (st1, .error er)
      | (st1, .ok (.Break rv)) => ({ st1 with environment := prev }, .ok (.Break rv))
      | (st1, .ok .Continue) => executeBlockGo fuel prev st1 rest
  termination_by structural fuel _x1 _x2 _x3 => fuel

/-- `LoxFunction::call` from `callable.rs` (lines 63–84): a fresh
environment enclosing the closure, parameters bound to arguments, the body
run as a block; then the initializer exception — `is_initializer` forces
the result to `closure.get_at(0, "this")` whatever the control flow was —
and otherwise a `Break` value or `Nil`. -/
def funCall : Nat → Interpreter → LoxFunction → List Literal →
    Interpreter × Except RunErr Literal
  | 0, st, _, _ => (st, .error (.panic "out of fuel"))
  | fuel + 1, st, f, args =>
      let (st1, env) := Environment.new_enclosed st f.closure
      let st2 := bindParams st1 env f.declaration.params args
      match executeBlock fuel st2 f.declaration.body env with
      | (st3, .error er) => (st3, .error er)
      | (st3, .ok result) =>
          if f.is_initializer then
            (st3, Environment.get_at st3.envs f.closure 0 THIS_KEYWORD)
          else
            match result with
            | .Break v => (st3, .ok v)
            | .Continue => (st3, .ok .Nil)
  termination_by structural fuel _x1 _x2 _x3 => fuel

/-- `LoxClass::call` from `callable.rs` (lines 158–171): allocate a fresh
instance; if an `init` method exists, bind it to that instance and call it
(errors propagate, the value is discarded); return the instance. -/
def classCall : Nat → Interpreter → LoxClass → List Literal →
    Interpreter × Except RunErr Literal
  | 0, st, _, _ => (st, .error (.panic "out of fuel"))
  | fuel + 1, st, k, args =>
      let (st1, addr) := instAlloc st ⟨k, []⟩
      match k.find_method "init" with
      | some initFn =>
          let (st2, bound) := initFn.bind st1 addr
          match funCall fuel st2 bound args with
          | (st3, .error er) => (st3, .error er)
          | (st3, .ok _) => (st3, .ok (.Instance addr))
      | none => (st1, .ok (.Instance addr))

  termination_by structural fuel _x1 _x2 _x3 => fuel
end

/-- `Interpreter::interpret` from `interpreter.rs`: run the statements in
order; a top-level `Break` value is returned as the program value, normal
completion yields `Nil`. -/
def interpret (fuel : Nat) (st : Interpreter) :
    List Statement → Interpreter × Except RunErr Literal
  | [] => (st, .ok .Nil)
  | s :: rest =>
      match execute fuel st s with
      | (st1, .error er) => (st1, .error er)
      | (st1, .ok (.Break rv)) => (st1, .ok rv)
      | (st1, .ok .Continue) => interpret fuel st1 rest

/-- `Interpreter::new` from `interpreter.rs`: one root environment holding
the native `clock`, used both as `globals` and as the starting
`environment`. -/
def Interpreter.new : Interpreter :=
  let st0 : Interpreter :=
    { envs := [], insts := [], globals := 0, environment := 0, locals := [], output := [] }
  let (st1, h) := Environment.new st0
  let envs2 := Environment.define st1.envs h "clock" (.Function (.Native 0))
  let st2 := { st1 with envs := envs2 }
  { st2 with globals := h, environment := h }

/-- `FunctionType` from `resolver.rs`. -/
inductive FunctionType
  | None | Function | Initializer | Method
  deriving DecidableEq, Repr

/-- `ClassType` from `resolver.rs`. -/
inductive ClassType
  | None | Class | Subclass
  deriving DecidableEq, Repr

/-- The `Resolver` from `resolver.rs`: the scope stack (last element =
innermost, like the Rust `Vec`), the two context enums, and the resolution
table it writes through `interpreter.resolve` (held here directly in place
of the `&mut Interpreter`). -/
structure Resolver where
  scopes : List (List (String × Bool))
  current_function : FunctionType
  current_class : ClassType
  locals : List (Nat × Nat)

/-- `Resolver::new` from `resolver.rs`, seeded with the interpreter's
current resolution table. -/
def Resolver.new (locals : List (Nat × Nat)) : Resolver :=
  ⟨[], .None, .None, locals⟩

/-- State-passing shape of the resolver walk: Rust's
`&mut self` receiver plus `ResolverResult`. -/
def RM (α : Type) : Type := Resolver → Resolver × Except RunErr α

instance : Monad RM where
  pure a := fun r => (r, .ok a)
  bind x f := fun r =>
    match x r with
    | (r1, .ok a) => f a r1
    | (r1, .error e) => (r1, .error e)

/-- Abort the walk (`return Err(...)` / a panic). -/
def RM.throw {α : Type} (e : RunErr) : RM α := fun r => (r, .error e)

/-- Read the resolver state. -/
def RM.get : RM Resolver := fun r => (r, .ok r)

/-- Update the resolver state. -/
def RM.modify (f : Resolver → Resolver) : RM Unit := fun r => (f r, .ok ())

/-- `Resolver::error` from `resolver.rs`. -/
def Resolver.error (token : Token) (message : String) : RunErr :=
  .lox (.resolver_error token.line token.lexeme message)

/-- `Resolver::begin_scope`. -/
def Resolver.begin_scope : RM Unit :=
  RM.modify fun r => { r with scopes := r.scopes ++ [[]] }

/-- `Resolver::end_scope`. -/
def Resolver.end_scope : RM Unit :=
  RM.modify fun r => { r with scopes := r.scopes.dropLast }

/-- Replace the innermost scope (`scopes.last_mut()`), a no-op when the
stack is empty (the `if let Some(scope)` pattern). -/
def Resolver.setLastScope (r : Resolver) (scope : List (String × Bool)) : Resolver :=
  { r with scopes := r.scopes.dropLast ++ [scope] }

/-- `Resolver::declare` from `resolver.rs`: in the innermost scope (if
any), redeclaration errs and otherwise the name maps to `false`. -/
def Resolver.declare (name : Token) : RM Unit := fun r =>
  match r.scopes.getLast? with
  | some scope =>
      if (lookupAssoc scope name.lexeme).isSome then
        (r, .error (Resolver.error name DUPLICATE_VARIABLE))
      else
        (Resolver.setLastScope r (insertAssoc scope name.lexeme false), .ok ())
  | none => (r, .ok ())

/-- `Resolver::define` from `resolver.rs`. -/
def Resolver.define (name : Token) : RM Unit := fun r =>
  match r.scopes.getLast? with
  | some scope =>
      (Resolver.setLastScope r (insertAssoc scope name.lexeme true), .ok ())
  | none => (r, .ok ())

/-- The loop of `Resolver::resolve_local` from `resolver.rs` (lines
242–249): `scopes.iter().rev().enumerate()`, record the first hit. -/
def resolveLocalGo (locals : List (Nat × Nat)) (id : Nat) (lexeme : String) :
    Nat → List (List (String × Bool)) → List (Nat × Nat)
  | _, [] => locals
  | depth, scope :: rest =>
      if (lookupAssoc scope lexeme).isSome then insertTable locals id depth
      else resolveLocalGo locals id lexeme (depth + 1) rest

/-- `Resolver::resolve_local` from `resolver.rs`: walk the scope stack
from the innermost scope outward and record
`interpreter.resolve(exp_id, depth)` at the first scope containing the
name; record nothing when none does. -/
def resolveLocal (locals : List (Nat × Nat)) (scopes : List (List (String × Bool)))
    (id : Nat) (lexeme : String) : List (Nat × Nat) :=
  resolveLocalGo locals id lexeme 0 scopes.reverse

/-- Modelled from the spec: the depth of a name is "the number of scopes
between the innermost scope and the one containing the name (0 =
innermost)" — `some d` when the nearest enclosing scope holding the name is
`d` steps out, `none` when no scope on the stack holds it.  Stated over the
stack with the innermost scope first, i.e. applied to `scopes.reverse`. -/
def depthFromInnermost (lexeme : String) : List (List (String × Bool)) → Option Nat
  | [] => none
  | scope :: rest =>
      if (lookupAssoc scope lexeme).isSome then some 0
      else (depthFromInnermost lexeme rest).map (· + 1)

/-- `resolve_local` inside the walk: reads the scopes, writes the table. -/
def Resolver.resolve_local (id : Nat) (name : Token) : RM Unit :=
  RM.modify fun r => { r with locals := resolveLocal r.locals r.scopes id name.lexeme }

/-- The parameter loop of `Resolver::resolve_function`. -/
def Resolver.declareParams : List Token → RM Unit
  | [] => pure ()
  | p :: rest => do
      Resolver.declare p
      Resolver.define p
      Resolver.declareParams rest

mutual

/-- `Resolver::resolve_expression` from `resolver.rs`. -/
def resolveExpression : Nat → Expression → RM Unit
  | 0, _ => RM.throw (.panic "out of fuel")
  | fuel + 1, e =>
    match e with
    | .Variable id name => do
        let r ← RM.get
        match r.scopes.getLast? with
        | some scope =>
            if lookupAssoc scope name.lexeme = some false then
              RM.throw (Resolver.error name VARIABLE_IN_OWN_INITIALIZER)
            else Resolver.resolve_local id name
        | none => Resolver.resolve_local id name
    | .Assign id name value => do
        resolveExpression fuel value
        Resolver.resolve_local id name
    | .Binary left _ right => do
        resolveExpression fuel left
        resolveExpression fuel right
    | .Call callee arguments => do
        resolveExpression fuel callee
        resolveExprList fuel arguments
    | .Grouping g => resolveExpression fuel g
    | .Literal _ => pure ()
    | .Logical left _ right => do
        resolveExpression fuel left
        resolveExpression fuel right
    | .Unary _ right => resolveExpression fuel right
    | .Get object _ => resolveExpression fuel object
    | .Set object _ value => do
        resolveExpression fuel value
        resolveExpression fuel object
    | .This id keyword => do
        let r ← RM.get
        if r.current_class = ClassType.None then
          RM.throw (Resolver.error keyword THIS_OUTSIDE_CLASS)
        else Resolver.resolve_local id keyword
    | .Super id keyword _ => do
        let r ← RM.get
        if r.current_class = ClassType.None then
          RM.throw (Resolver.error keyword SUPER_OUTSIDE_CLASS)
        else if r.current_class ≠ ClassType.Subclass then
          RM.throw (Resolver.error keyword SUPER_WITHOUT_SUPERCLASS)
        else Resolver.resolve_local id keyword
  termination_by structural fuel _x1 => fuel

/-- Argument loop of the resolver's `Call` arm. -/
def resolveExprList : Nat → List Expression → RM Unit
  | 0, _ => RM.throw (.panic "out of fuel")
  | _ + 1, [] => pure ()
  | fuel + 1, e :: rest => do
      resolveExpression fuel e
      resolveExprList fuel rest
  termination_by structural fuel _x1 => fuel

/-- `Resolver::resolve_statement` from `resolver.rs`. -/
def resolveStatement : Nat → Statement → RM Unit
  | 0, _ => RM.throw (.panic "out of fuel")
  | fuel + 1, s =>
    match s with
    | .Block statements => do
        Resolver.begin_scope
        resolveStmts fuel statements
        Resolver.end_scope
    | .Class name superclass methods => do
        let r0 ← RM.get
        let enclosing := r0.current_class
        RM.modify fun r => { r with current_class := .Class }
        Resolver.declare name
        Resolver.define name
        (match superclass with
         | some sup =>
             (match sup with
              | .Variable _ supName => do
                  if name.lexeme = supName.lexeme then
                    RM.throw (Resolver.error name CLASS_INHERIT_SELF)
                  else do
                    RM.modify fun r => { r with current_class := .Subclass }
                    resolveExpression fuel sup
                    Resolver.begin_scope
                    (fun r =>
                      match r.scopes.getLast? with
                      | some scope =>
                          (Resolver.setLastScope r
                            (insertAssoc scope SUPER_KEYWORD true), .ok ())
                      | none =>
                          (r, .error (.panic
                            "called Option::unwrap on a None value")))
              | _ =>
                  RM.throw (.panic
                    "internal error: entered unreachable code: Superclass should be a variable"))
         | none => pure ())
        Resolver.begin_scope
        RM.modify fun r =>
          match r.scopes.getLast? with
          | some scope => Resolver.setLastScope r (insertAssoc scope THIS_KEYWORD true)
          | none => r
        resolveMethods fuel methods
        Resolver.end_scope
        if superclass.isSome then Resolver.end_scope else pure ()
        RM.modify fun r => { r with current_class := enclosing }
    | .Variable name init => do
        Resolver.declare name
        (match init with
         | some e => resolveExpression fuel e
         | none => pure ())
        Resolver.define name
    | .Function f => do
        Resolver.declare f.name
        Resolver.define f.name
        resolveFunction fuel f .Function
    | .Expression e => resolveExpression fuel e
    | .If condition then_branch else_branch => do
        resolveExpression fuel condition
        resolveStatement fuel then_branch
        (match else_branch with
         | some eb => resolveStatement fuel eb
         | none => pure ())
    | .Print e => resolveExpression fuel e
    | .Return keyword value => do
        let r ← RM.get
        if r.current_function = FunctionType.None then
          RM.throw (Resolver.error keyword RETURN_FROM_TOP_LEVEL)
        else
          match value with
          | some v => do
              let r1 ← RM.get
              if r1.current_function = FunctionType.Initializer then
                RM.throw (Resolver.error keyword RETURN_FROM_INITIALIZER)
              else resolveExpression fuel v
          | none => pure ()
    | .While condition body => do
        resolveExpression fuel condition
        resolveStatement fuel body
  termination_by structural fuel _x1 => fuel

/-- `Resolver::resolve` from `resolver.rs`: the statement loop. -/
def resolveStmts : Nat → List Statement → RM Unit
  | 0, _ => RM.throw (.panic "out of fuel")
  | _ + 1, [] => pure ()
  | fuel + 1, s :: rest => do
      resolveStatement fuel s
      resolveStmts fuel rest
  termination_by structural fuel _x1 => fuel

/-- The method loop of the resolver's `Class` arm:
`FunctionType::Initializer` iff the method is named `init`. -/
def resolveMethods : Nat → List Function → RM Unit
  | 0, _ => RM.throw (.panic "out of fuel")
  | _ + 1, [] => pure ()
  | fuel + 1, m :: rest => do
      let ftype := if m.name.lexeme == INIT_METHOD then
        FunctionType.Initializer else FunctionType.Method
      resolveFunction fuel m ftype
      resolveMethods fuel rest
  termination_by structural fuel _x1 => fuel

/-- `Resolver::resolve_function` from `resolver.rs`. -/
def resolveFunction : Nat → Function → FunctionType → RM Unit
  | 0, _, _ => RM.throw (.panic "out of fuel")
  | fuel + 1, f, ty => do
      let r0 ← RM.get
      let enclosing := r0.current_function
      RM.modify fun r => { r with current_function := ty }
      Resolver.begin_scope
      Resolver.declareParams f.params
      resolveStmts fuel f.body
      Resolver.end_scope
      RM.modify fun r => { r with current_function := enclosing }

  termination_by structural fuel _x1 _x2 => fuel
end

/-- The `Parser` from `parser.rs`: token slice, cursor, id counter. -/
structure Parser where
  tokens : List Token
  current : Nat
  next_id : Nat

/-- `Parser::new` from `parser.rs`. -/
def Parser.new (tokens : List Token) : Parser :=
  ⟨tokens, 0, 0⟩

/-- State-passing shape of the parser: Rust's `&mut self` receiver plus
`ParserResult`. -/
def PM (α : Type) : Type := Parser → Parser × Except RunErr α

instance : Monad PM where
  pure a := fun p => (p, .ok a)
  bind x f := fun p =>
    match x p with
    | (p1, .ok a) => f a p1
    | (p1, .error e) => (p1, .error e)

/-- Abort the parse (`return Err(...)` / a panic). -/
def PM.throw {α : Type} (e : RunErr) : PM α := fun p => (p, .error e)

/-- Update the parser state. -/
def PM.modify (f : Parser → Parser) : PM Unit := fun p => (f p, .ok ())

/-- `Parser::error` from `parser.rs` (`RuntimeError::ParserError`). -/
def Parser.error (token : Token) (message : String) : RunErr :=
  .lox (.parser_error token.line token.lexeme message)

/-- `Parser::peek` from `parser.rs`: `&self.tokens[self.current]`; an
out-of-range index is a panic. -/
def Parser.peek : PM Token := fun p =>
  (p, match p.tokens.get? p.current with
      | some t => .ok t
      | none => .error (.panic "index out of bounds"))

/-- `Parser::previous` from `parser.rs`: `&self.tokens[self.current - 1]`;
at `current = 0` the `usize` subtraction overflows (a panic). -/
def Parser.previous : PM Token := fun p =>
  (p, if p.current = 0 then .error (.panic "attempt to subtract with overflow")
      else
        match p.tokens.get? (p.current - 1) with
        | some t => .ok t
        | none => .error (.panic "index out of bounds"))

/-- `Parser::is_at_end` from `parser.rs`. -/
def Parser.is_at_end : PM Bool := do
  let t ← Parser.peek
  pure (decide (t.token_type = TokenType.EOF))

/-- `Parser::check` from `parser.rs`. -/
def Parser.check (tt : TokenType) : PM Bool := do
  let e ← Parser.is_at_end
  if e then pure false
  else do
    let t ← Parser.peek
    pure (decide (t.token_type = tt))

/-- `Parser::advance` from `parser.rs`. -/
def Parser.advance : PM Token := do
  let e ← Parser.is_at_end
  if !e then PM.modify fun p => { p with current := p.current + 1 } else pure ()
  Parser.previous

/-- `Parser::match_` from `parser.rs`:
`token_types.iter().any(|t| if check { advance; true } else false)` —
the first matching kind advances and short-circuits. -/
def Parser.matchT : List TokenType → PM Bool
  | [] => pure false
  | tt :: rest => do
      if (← Parser.check tt) then do
        let _ ← Parser.advance
        pure true
      else Parser.matchT rest

/-- `Parser::consume` from `parser.rs`. -/
def Parser.consume (tt : TokenType) (message : String) : PM Token := do
  if (← Parser.check tt) then Parser.advance
  else do
    let t ← Parser.peek
    PM.throw (Parser.error t message)

/-- `Parser::next_id` from `parser.rs` (the method; the struct field keeps
the Rust name `next_id`). -/
def Parser.nextId : PM Nat := fun p =>
  ({ p with next_id := p.next_id + 1 }, .ok p.next_id)

mutual

/-- `Parser::parse` from `parser.rs`: `declaration` until `is_at_end`. -/
def Parser.parse : Nat → PM (List Statement)
  | 0 => PM.throw (.panic "out of fuel")
  | fuel + 1 => Parser.parseGo fuel []

/-- The statement loop of `Parser::parse`. -/
def Parser.parseGo : Nat → List Statement → PM (List Statement)
  | 0, _ => PM.throw (.panic "out of fuel")
  | fuel + 1, acc => do
      if !(← Parser.is_at_end) then do
        let s ← Parser.declaration fuel
        Parser.parseGo fuel (acc ++ [s])
      else pure acc
  termination_by structural fuel _x1 => fuel

/-- `Parser::declaration` from `parser.rs`. -/
def Parser.declaration : Nat → PM Statement
  | 0 => PM.throw (.panic "out of fuel")
  | fuel + 1 => do
      if (← Parser.matchT [.CLASS]) then Parser.class_declaration fuel
      else if (← Parser.matchT [.FUN]) then do
        let f ← Parser.function fuel "function"
        pure (.Function f)
      else if (← Parser.matchT [.VAR]) then Parser.variable fuel
      else Parser.statement fuel
  termination_by structural fuel => fuel

/-- `Parser::class_declaration` from `parser.rs` (lines 45–56), exactly as
written: after the class name it immediately expects `{` — there is no
`( "<" IDENT )?` superclass clause — and the built statement carries no
superclass (embedded as `none`, the AST field the evaluator expects). -/
def Parser.class_declaration : Nat → PM Statement
  | 0 => PM.throw (.panic "out of fuel")
  | fuel + 1 => do
      let name ← Parser.consume .IDENTIFIER "Expect class name."
      let _ ← Parser.consume .LEFT_BRACE "Expect \x27\x7b\x27 before class body."
      let methods ← Parser.methodsGo fuel []
      let _ ← Parser.consume .RIGHT_BRACE "Expect \x27\x7d\x27 after class body."
      pure (.Class name none methods)
  termination_by structural fuel => fuel

/-- The method loop of `Parser::class_declaration`. -/
def Parser.methodsGo : Nat → List Function → PM (List Function)
  | 0, _ => PM.throw (.panic "out of fuel")
  | fuel + 1, acc => do
      let c ← Parser.check .RIGHT_BRACE
      let e ← Parser.is_at_end
      if !c && !e then do
        let m ← Parser.function fuel "method"
        Parser.methodsGo fuel (acc ++ [m])
      else pure acc
  termination_by structural fuel _x1 => fuel

/-- `Parser::function` from `parser.rs`. -/
def Parser.function : Nat → String → PM Function
  | 0, _ => PM.throw (.panic "out of fuel")
  | fuel + 1, kind => do
      let name ← Parser.consume .IDENTIFIER ("Expect " ++ kind ++ " name.")
      let _ ← Parser.consume .LEFT_PAREN ("Expect \x27(\x27 after " ++ kind ++ " name.")
      let params ← (do
        if !(← Parser.check .RIGHT_PAREN) then Parser.paramsGo fuel []
        else pure [])
      let _ ← Parser.consume .RIGHT_PAREN "Expect \x27)\x27 after parameters."
      let _ ← Parser.consume .LEFT_BRACE ("Expect \x27\x7b\x27 before " ++ kind ++ " body.")
      let body ← Parser.block fuel
      pure (Function.mk name params body)
  termination_by structural fuel _x1 => fuel

/-- The parameter loop of `Parser::function` (cap 255). -/
def Parser.paramsGo : Nat → List Token → PM (List Token)
  | 0, _ => PM.throw (.panic "out of fuel")
  | fuel + 1, acc => do
      if acc.length ≥ 255 then do
        let t ← Parser.peek
        PM.throw (Parser.error t "Cannot have more than 255 parameters.")
      else do
        let p ← Parser.consume .IDENTIFIER "Expect parameter name."
        if (← Parser.matchT [.COMMA]) then Parser.paramsGo fuel (acc ++ [p])
        else pure (acc ++ [p])
  termination_by structural fuel _x1 => fuel

/-- `Parser::variable` from `parser.rs` (the `var` declaration). -/
def Parser.variable : Nat → PM Statement
  | 0 => PM.throw (.panic "out of fuel")
  | fuel + 1 => do
      let name ← Parser.consume .IDENTIFIER "Expect variable name."
      let init ← (do
        if (← Parser.matchT [.EQUAL]) then do
          let e ← Parser.expression fuel
          pure (some e)
        else pure none)
      let _ ← Parser.consume .SEMICOLON "Expect \x27;\x27 after variable declaration."
      pure (.Variable name init)

/-- `Parser::statement` from `parser.rs`. -/
def Parser.statement : Nat → PM Statement
  | 0 => PM.throw (.panic "out of fuel")
  | fuel + 1 => do
      if (← Parser.matchT [.FOR]) then Parser.for_statement fuel
      else if (← Parser.matchT [.IF]) then Parser.if_statement fuel
      else if (← Parser.matchT [.PRINT]) then do
        let e ← Parser.expression fuel
        let _ ← Parser.consume .SEMICOLON "Expect \x27;\x27 after value."
        pure (.Print e)
      else if (← Parser.matchT [.RETURN]) then Parser.return_statement fuel
      else if (← Parser.matchT [.WHILE]) then Parser.while_statement fuel
      else if (← Parser.matchT [.LEFT_BRACE]) then do
        let stmts ← Parser.block fuel
        pure (.Block stmts)
      else do
        let e ← Parser.expression fuel
        let _ ← Parser.consume .SEMICOLON "Expect \x27;\x27 after expression."
        pure (.Expression e)
  termination_by structural fuel => fuel

/-- `Parser::for_statement` from `parser.rs`, with the documented
desugaring into `Block`/`While`. -/
def Parser.for_statement : Nat → PM Statement
  | 0 => PM.throw (.panic "out of fuel")
  | fuel + 1 => do
      let _ ← Parser.consume .LEFT_PAREN "Expect \x27(\x27 after \x27for\x27."
      let initializer ← (do
        if (← Parser.matchT [.SEMICOLON]) then pure none
        else if (← Parser.matchT [.VAR]) then do
          let s ← Parser.variable fuel
          pure (some s)
        else do
          let s ← Parser.statement fuel
          pure (some s))
      let condition ← (do
        if !(← Parser.check .SEMICOLON) then Parser.expression fuel
        else pure (Expression.Literal (.Boolean true)))
      let _ ← Parser.consume .SEMICOLON "Expect \x27;\x27 after loop condition."
      let increment ← (do
        if !(← Parser.check .RIGHT_PAREN) then do
          let e ← Parser.expression fuel
          pure (some e)
        else pure none)
      let _ ← Parser.consume .RIGHT_PAREN "Expect \x27)\x27 after for clauses."
      let body0 ← Parser.statement fuel
      let body1 :=
        match increment with
        | some inc => Statement.Block [body0, .Expression inc]
        | none => body0
      let body2 := Statement.While condition body1
      let body3 :=
        match initializer with
        | some i => Statement.Block [i, body2]
        | none => body2
      pure body3
  termination_by structural fuel => fuel

/-- `Parser::if_statement` from `parser.rs`. -/
def Parser.if_statement : Nat → PM Statement
  | 0 => PM.throw (.panic "out of fuel")
  | fuel + 1 => do
      let _ ← Parser.consume .LEFT_PAREN "Expect \x27(\x27 after \x27if\x27."
      let condition ← Parser.expression fuel
      let _ ← Parser.consume .RIGHT_PAREN "Expect \x27)\x27 after if condition."
      let then_branch ← Parser.statement fuel
      let else_branch ← (do
        if (← Parser.matchT [.ELSE]) then do
          let s ← Parser.statement fuel
          pure (some s)
        else pure none)
      pure (.If condition then_branch else_branch)
  termination_by structural fuel => fuel

/-- `Parser::return_statement` from `parser.rs`. -/
def Parser.return_statement : Nat → PM Statement
  | 0 => PM.throw (.panic "out of fuel")
  | fuel + 1 => do
      let keyword ← Parser.previous
      let value ← (do
        if !(← Parser.check .SEMICOLON) then do
          let e ← Parser.expression fuel
          pure (some e)
        else pure none)
      let _ ← Parser.consume .SEMICOLON "Expect \x27;\x27 after return value."
      pure (.Return keyword value)

/-- `Parser::while_statement` from `parser.rs`. -/
def Parser.while_statement : Nat → PM Statement
  | 0 => PM.throw (.panic "out of fuel")
  | fuel + 1 => do
      let _ ← Parser.consume .LEFT_PAREN "Expect \x27(\x27 after \x27while\x27."
      let condition ← Parser.expression fuel
      let _ ← Parser.consume .RIGHT_PAREN "Expect \x27)\x27 after condition."
      let body ← Parser.statement fuel
      pure (.While condition body)
  termination_by structural fuel => fuel

/-- `Parser::block` from `parser.rs`. -/
def Parser.block : Nat → PM (List Statement)
  | 0 => PM.throw (.panic "out of fuel")
  | fuel + 1 => do
      let stmts ← Parser.blockGo fuel []
      let _ ← Parser.consume .RIGHT_BRACE "Expect \x27\x7d\x27 after block."
      pure stmts
  termination_by structural fuel => fuel

/-- The declaration loop of `Parser::block`. -/
def Parser.blockGo : Nat → List Statement → PM (List Statement)
  | 0, _ => PM.throw (.panic "out of fuel")
  | fuel + 1, acc => do
      let c ← Parser.check .RIGHT_BRACE
      let e ← Parser.is_at_end
      if !c && !e then do
        let s ← Parser.declaration fuel
        Parser.blockGo fuel (acc ++ [s])
      else pure acc
  termination_by structural fuel _x1 => fuel

/-- `Parser::expression` from `parser.rs` — the assignment rule: rewrite a
`Variable` target to `Assign` (with a fresh id) and a `Get` target to
`Set`; anything else is "Invalid assignment target." at `previous()`. -/
def Parser.expression : Nat → PM Expression
  | 0 => PM.throw (.panic "out of fuel")
  | fuel + 1 => do
      let expr ← Parser.logic_or fuel
      if !(← Parser.matchT [.EQUAL]) then pure expr
      else do
        let value ← Parser.expression fuel
        match expr with
        | .Variable _ name => do
            let id ← Parser.nextId
            pure (.Assign id name value)
        | .Get object name => pure (.Set object name value)
        | _ => do
            let t ← Parser.previous
            PM.throw (Parser.error t "Invalid assignment target.")
  termination_by structural fuel => fuel

/-- `Parser::logic_or`: `logical_operation(&[OR], logic_and)`
(the generic combinator of `parser.rs` specialised to its call site). -/
def Parser.logic_or : Nat → PM Expression
  | 0 => PM.throw (.panic "out of fuel")
  | fuel + 1 => do
      let left ← Parser.logic_and fuel
      Parser.logic_orGo fuel left
  termination_by structural fuel => fuel

/-- The `while self.match_(operators)` loop of `logical_operation` for
`logic_or`. -/
def Parser.logic_orGo : Nat → Expression → PM Expression
  | 0, _ => PM.throw (.panic "out of fuel")
  | fuel + 1, left => do
      if (← Parser.matchT [.OR]) then do
        let op ← Parser.previous
        let right ← Parser.logic_and fuel
        Parser.logic_orGo fuel (.Logical left op right)
      else pure left
  termination_by structural fuel _x1 => fuel

/-- `Parser::logic_and`: `logical_operation(&[AND], equality)`. -/
def Parser.logic_and : Nat → PM Expression
  | 0 => PM.throw (.panic "out of fuel")
  | fuel + 1 => do
      let left ← Parser.equality fuel
      Parser.logic_andGo fuel left
  termination_by structural fuel => fuel

/-- The operator loop for `logic_and`. -/
def Parser.logic_andGo : Nat → Expression → PM Expression
  | 0, _ => PM.throw (.panic "out of fuel")
  | fuel + 1, left => do
      if (← Parser.matchT [.AND]) then do
        let op ← Parser.previous
        let right ← Parser.equality fuel
        Parser.logic_andGo fuel (.Logical left op right)
      else pure left
  termination_by structural fuel _x1 => fuel

/-- `Parser::equality`: `binary_operation(&[BANG_EQUAL, EQUAL_EQUAL],
comparison)`. -/
def Parser.equality : Nat → PM Expression
  | 0 => PM.throw (.panic "out of fuel")
  | fuel + 1 => do
      let left ← Parser.comparison fuel
      Parser.equalityGo fuel left
  termination_by structural fuel => fuel

/-- The operator loop for `equality`. -/
def Parser.equalityGo : Nat → Expression → PM Expression
  | 0, _ => PM.throw (.panic "out of fuel")
  | fuel + 1, left => do
      if (← Parser.matchT [.BANG_EQUAL, .EQUAL_EQUAL]) then do
        let op ← Parser.previous
        let right ← Parser.comparison fuel
        Parser.equalityGo fuel (.Binary left op right)
      else pure left
  termination_by structural fuel _x1 => fuel

/-- `Parser::comparison`: `binary_operation(&[GREATER, GREATER_EQUAL,
LESS, LESS_EQUAL], term)`. -/
def Parser.comparison : Nat → PM Expression
  | 0 => PM.throw (.panic "out of fuel")
  | fuel + 1 => do
      let left ← Parser.term fuel
      Parser.comparisonGo fuel left
  termination_by structural fuel => fuel

/-- The operator loop for `comparison`. -/
def Parser.comparisonGo : Nat → Expression → PM Expression
  | 0, _ => PM.throw (.panic "out of fuel")
  | fuel + 1, left => do
      if (← Parser.matchT [.GREATER, .GREATER_EQUAL, .LESS, .LESS_EQUAL]) then do
        let op ← Parser.previous
        let right ← Parser.term fuel
        Parser.comparisonGo fuel (.Binary left op right)
      else pure left
  termination_by structural fuel _x1 => fuel

/-- `Parser::term`: `binary_operation(&[MINUS, PLUS], factor)`. -/
def Parser.term : Nat → PM Expression
  | 0 => PM.throw (.panic "out of fuel")
  | fuel + 1 => do
      let left ← Parser.factor fuel
      Parser.termGo fuel left
  termination_by structural fuel => fuel

/-- The operator loop for `term`. -/
def Parser.termGo : Nat → Expression → PM Expression
  | 0, _ => PM.throw (.panic "out of fuel")
  | fuel + 1, left => do
      if (← Parser.matchT [.MINUS, .PLUS]) then do
        let op ← Parser.previous
        let right ← Parser.factor fuel
        Parser.termGo fuel (.Binary left op right)
      else pure left
  termination_by structural fuel _x1 => fuel

/-- `Parser::factor`: `binary_operation(&[SLASH, STAR], unary)`. -/
def Parser.factor : Nat → PM Expression
  | 0 => PM.throw (.panic "out of fuel")
  | fuel + 1 => do
      let left ← Parser.unary fuel
      Parser.factorGo fuel left
  termination_by structural fuel => fuel

/-- The operator loop for `factor`. -/
def Parser.factorGo : Nat → Expression → PM Expression
  | 0, _ => PM.throw (.panic "out of fuel")
  | fuel + 1, left => do
      if (← Parser.matchT [.SLASH, .STAR]) then do
        let op ← Parser.previous
        let right ← Parser.unary fuel
        Parser.factorGo fuel (.Binary left op right)
      else pure left
  termination_by structural fuel _x1 => fuel

/-- `Parser::unary` from `parser.rs`. -/
def Parser.unary : Nat → PM Expression
  | 0 => PM.throw (.panic "out of fuel")
  | fuel + 1 => do
      if (← Parser.matchT [.BANG, .MINUS]) then do
        let op ← Parser.previous
        let right ← Parser.unary fuel
        pure (.Unary op right)
      else Parser.call fuel
  termination_by structural fuel => fuel

/-- `Parser::call` from `parser.rs`. -/
def Parser.call : Nat → PM Expression
  | 0 => PM.throw (.panic "out of fuel")
  | fuel + 1 => do
      let e ← Parser.primary fuel
      Parser.callGo fuel e
  termination_by structural fuel => fuel

/-- The `loop` of `Parser::call`: call suffixes and `.IDENT` property
accesses. -/
def Parser.callGo : Nat → Expression → PM Expression
  | 0, _ => PM.throw (.panic "out of fuel")
  | fuel + 1, e => do
      if (← Parser.matchT [.LEFT_PAREN]) then do
        let e1 ← Parser.finish_call fuel e
        Parser.callGo fuel e1
      else if (← Parser.matchT [.DOT]) then do
        let name ← Parser.consume .IDENTIFIER "Expect property name after \x27.\x27"
        Parser.callGo fuel (.Get e name)
      else pure e
  termination_by structural fuel _x1 => fuel

/-- `Parser::finish_call` from `parser.rs`. -/
def Parser.finish_call : Nat → Expression → PM Expression
  | 0, _ => PM.throw (.panic "out of fuel")
  | fuel + 1, callee => do
      let arguments ← (do
        if !(← Parser.check .RIGHT_PAREN) then Parser.argsGo fuel []
        else pure [])
      let _ ← Parser.consume .RIGHT_PAREN "Expect \x27)\x27 after arguments."
      pure (.Call callee arguments)
  termination_by structural fuel _x1 => fuel

/-- The argument loop of `Parser::finish_call` (cap 255). -/
def Parser.argsGo : Nat → List Expression → PM (List Expression)
  | 0, _ => PM.throw (.panic "out of fuel")
  | fuel + 1, acc => do
      if acc.length ≥ 255 then do
        let t ← Parser.peek
        PM.throw (Parser.error t "Cannot have more than 255 arguments.")
      else do
        let e ← Parser.expression fuel
        if (← Parser.matchT [.COMMA]) then Parser.argsGo fuel (acc ++ [e])
        else pure (acc ++ [e])
  termination_by structural fuel _x1 => fuel

/-- `Parser::primary` from `parser.rs` (lines 376–403), exactly as
written: `false`/`true`/`nil`, number and string literals (`unwrap` on the
token literal), `this`, identifiers, parenthesised groups — and nothing
else: a `SUPER` token falls to the final arm, "Expect expression.". -/
def Parser.primary : Nat → PM Expression
  | 0 => PM.throw (.panic "out of fuel")
  | fuel + 1 => do
      if (← Parser.matchT [.FALSE]) then pure (Expression.Literal (.Boolean false))
      else if (← Parser.matchT [.TRUE]) then pure (Expression.Literal (.Boolean true))
      else if (← Parser.matchT [.NIL]) then pure (Expression.Literal .Nil)
      else if (← Parser.matchT [.NUMBER, .STRING]) then do
        let t ← Parser.previous
        match t.literal with
        | some l => pure (Expression.Literal l)
        | none => PM.throw (.panic "called Option::unwrap on a None value")
      else if (← Parser.matchT [.THIS]) then do
        let id ← Parser.nextId
        let t ← Parser.previous
        pure (.This id t)
      else if (← Parser.matchT [.IDENTIFIER]) then do
        let id ← Parser.nextId
        let t ← Parser.previous
        pure (.Variable id t)
      else if (← Parser.matchT [.LEFT_PAREN]) then do
        let e ← Parser.expression fuel
        let _ ← Parser.consume .RIGHT_PAREN "Expect \x27)\x27 after expression."
        pure (.Grouping e)
      else do
        let t ← Parser.peek
        PM.throw (Parser.error t "Expect expression.")

  termination_by structural fuel => fuel
end

/-- Shorthand: a token of the given kind on line 1 with no literal. -/
def tok (tt : TokenType) (lexeme : String) : Token :=
  ⟨tt, lexeme, none, 1⟩

/-- Token sequence of `class B < A {}` (per the scanner contract of the
spec: `<` lexes as `LESS`, the braces as `LEFT_BRACE`/`RIGHT_BRACE`). -/
def c1SuperclassTokens : List Token :=
  [tok .CLASS "class", tok .IDENTIFIER "B", tok .LESS "<", tok .IDENTIFIER "A",
   tok .LEFT_BRACE "\x7b", tok .RIGHT_BRACE "\x7d", tok .EOF ""]

/-- Token sequence of `super.m;`. -/
def c1SuperTokens : List Token :=
  [tok .SUPER "super", tok .DOT ".", tok .IDENTIFIER "m", tok .SEMICOLON ";",
   tok .EOF ""]

/-- A method `m` with empty parameter list and body, closed over the root
environment. -/
def c2MethodM : LoxFunction :=
  ⟨⟨tok .IDENTIFIER "m", [], []⟩, 0, false⟩

/-- `class A { m() {} }` as a runtime class value. -/
def c2ClassA : LoxClass := ⟨"A", none, [("m", c2MethodM)]⟩

/-- `class B < A {}` as a runtime class value: superclass `A`, no own
methods. -/
def c2ClassB : LoxClass := ⟨"B", some c2ClassA, []⟩

/-- `class C { set() { this.f = 1; } }` (resolvable ids assigned in parse
order: the `this` inside `set` has id 0). -/
def c3StmtClass : Statement :=
  .Class (tok .IDENTIFIER "C") none
    [⟨tok .IDENTIFIER "set", [],
      [.Expression (.Set (.This 0 (tok .THIS "this")) (tok .IDENTIFIER "f")
        (.Literal (.Number 1)))]⟩]

/-- `var i = C();` (the `C` reference has id 1). -/
def c3StmtVar : Statement :=
  .Variable (tok .IDENTIFIER "i")
    (some (.Call (.Variable 1 (tok .IDENTIFIER "C")) []))

/-- `i.set();` (the `i` reference has id 2). -/
def c3StmtCall : Statement :=
  .Expression (.Call (.Get (.Variable 2 (tok .IDENTIFIER "i"))
    (tok .IDENTIFIER "set")) [])

/-- `print i.f;` (the `i` reference has id 3). -/
def c3StmtPrint : Statement :=
  .Print (.Get (.Variable 3 (tok .IDENTIFIER "i")) (tok .IDENTIFIER "f"))

/-- The program `class C { set() { this.f = 1; } } var i = C(); i.set();
print i.f;`. -/
def c3Prog : List Statement :=
  [c3StmtClass, c3StmtVar, c3StmtCall, c3StmtPrint]

/-- The resolver pass over `c3Prog`, started like `Resolver::new` on a
fresh interpreter. -/
def c3Resolved : Resolver × Except RunErr Unit :=
  resolveStmts 30 c3Prog (Resolver.new Interpreter.new.locals)

/-- The interpreter state carrying the resolution table of `c3Prog`
(`{(0, 1)}`: the method's `this` at depth 1, proved equal to the
resolver's output in the theorem). -/
def c3St : Interpreter := { Interpreter.new with locals := [(0, 1)] }

/-- State after the class declaration. -/
def c3St1 : Interpreter := (execute 15 c3St c3StmtClass).1

/-- State after `var i = C();`. -/
def c3St2 : Interpreter := (execute 15 c3St1 c3StmtVar).1

/-- State after `i.set();`. -/
def c3St3 : Interpreter := (execute 15 c3St2 c3StmtCall).1

/-- State after the failing `print i.f;`. -/
def c3St4 : Interpreter := (execute 15 c3St3 c3StmtPrint).1

/-- A fresh interpreter with one extra environment (handle 1) enclosing
the globals — the block environment for the C4 counterexample. -/
def c4St : Interpreter := (Environment.new_enclosed Interpreter.new 0).1

/-- The statement `x;` with `x` undefined: its execution is a runtime
error. -/
def c4Bad : Statement := .Expression (.Variable 0 (tok .IDENTIFIER "x"))

/-- `init() { return; }` — an initializer body that is a bare `return;`. -/
def c5Init : Function :=
  ⟨tok .IDENTIFIER "init", [], [.Return (tok .RETURN "return") none]⟩

/-- `class K { init() { return; } }` as a runtime class value (the `init`
closure is the root environment). -/
def c5ClassK : LoxClass := ⟨"K", none, [("init", ⟨c5Init, 0, true⟩)]⟩

/-- A state whose environment 1 is a bound-`this` frame (`this` ↦ instance
0 of `K`), as `LoxFunction::bind` would build it. -/
def c5StF : Interpreter :=
  { Interpreter.new with
    envs := Interpreter.new.envs ++ [⟨[("this", .Instance 0)], some 0⟩],
    insts := [⟨c5ClassK, []⟩] }

/-- The bound initializer: declaration `c5Init`, closure = the bound
frame 1, `is_initializer` set. -/
def c5Fn : LoxFunction := ⟨c5Init, 1, true⟩

/-- A `+` token. -/
def plusTok : Token := tok .PLUS "+"

/-- A user function of arity 1 (`fun g(a) {}`) closed over the root
environment. -/
def c8Fn : LoxFunction :=
  ⟨⟨tok .IDENTIFIER "g", [tok .IDENTIFIER "a"], []⟩, 0, false⟩

/-- A callee expression that evaluates to `c8Fn`. -/
def c8Callee : Expression := .Literal (.Function (.Fn c8Fn))

/-- C1 (code_bug): the claim says the parser accepts `class B < A { ... }`
(an optional `< IDENT` superclass clause) and `super.m` (a `"super" "."
IDENT` primary), yielding a `Class` statement carrying the superclass and a
`Super` node.  The parser as written does neither: on `class B < A {}` the
`class_declaration` of `parser.rs` demands `{` right after the class name
and fails at `<` with "Expect '{' before class body.", and on `super.m;`
the `primary` of `parser.rs` has no `SUPER` arm, so the parse fails at
`super` with "Expect expression.".  (The resolver and interpreter in the
same repository do consume superclasses and `Super` nodes, so the spec
states the evident intent and the stale parser is the slip.) -/
theorem c1_parser_rejects_superclass_and_super :
    (Parser.parse 20 (Parser.new c1SuperclassTokens)).2
      = .error (.lox (.SyntaxError 1 "Parser" "<"
          "Expect \x27\x7b\x27 before class body.")) ∧
    (Parser.parse 20 (Parser.new c1SuperTokens)).2
      = .error (.lox (.SyntaxError 1 "Parser" "super" "Expect expression.")) :=
  ⟨rfl, rfl⟩

/-- C2 (code_bug): the claim says property lookup walks the class chain
(class, then superclass, …).  `LoxClass::find_method` as written consults
only the class's own method map: for an instance of `B` (superclass `A`,
no own methods) with an empty field map, looking up `m` fails with
`Undefined property 'm'.` even though `A` — in the chain — defines `m`.
(`Interpreter::execute` passes the superclass into `LoxClass::new`, which
the stale `callable.rs` declaration cannot even store; the spec states the
evident intent and `find_method` is the slip.) -/
theorem c2_find_method_ignores_superclass :
    c2ClassB.superclass = some c2ClassA ∧
    c2ClassA.find_method "m" = some c2MethodM ∧
    c2ClassB.find_method "m" = none ∧
    (LoxInstance.get Interpreter.new ⟨c2ClassB, []⟩ (tok .IDENTIFIER "m")).2
      = .error (.lox (.UndefinedProperty "m")) :=
  ⟨rfl, rfl, rfl, rfl⟩

/-- C3 (code_bug): the claim says all references to an instance share one
mutable field map, so after `i.set()` runs `this.f = 1`, reading `i.f`
yields `1`.  `LoxInstance::get` as written clones the instance into a
fresh `Rc` before binding a method (`Rc::new(RefCell::new(self.clone()))`),
so the write lands on the clone: running the resolved program
`class C { set() { this.f = 1; } } var i = C(); i.set(); print i.f;`
ends with `Undefined property 'f'.` and prints nothing. -/
theorem c3_bound_method_mutation_lost :
    c3Resolved.2 = .ok () ∧
    c3Resolved.1.locals = [(0, 1)] ∧
    (interpret 15 c3St c3Prog).2 = .error (.lox (.UndefinedProperty "f")) ∧
    (interpret 15 c3St c3Prog).1.output = [] := by
  have h1 : execute 15 c3St c3StmtClass = (c3St1, .ok .Continue) := rfl
  have h2 : execute 15 c3St1 c3StmtVar = (c3St2, .ok .Continue) := rfl
  have h3 : execute 15 c3St2 c3StmtCall = (c3St3, .ok .Continue) := rfl
  have h4 : execute 15 c3St3 c3StmtPrint
      = (c3St4, .error (.lox (.UndefinedProperty "f"))) := rfl
  have h5 : c3St4.output = [] := rfl
  have hrun : interpret 15 c3St c3Prog
      = (c3St4, .error (.lox (.UndefinedProperty "f"))) := by
    simp only [c3Prog, interpret, h1, h2, h3, h4]
  exact ⟨rfl, rfl, by rw [hrun], by rw [hrun]; exact h5⟩

/-- C4 (counterexample): executing a block whose statement raises a
runtime error returns with the current-environment handle still at the
block's inner environment (handle 1), not the handle held before
(handle 0): the `?` in `execute_block` propagates errors without
restoring. -/
theorem c4_error_path_counterexample :
    (executeBlock 9 c4St [c4Bad] 1).2 = .error (.lox (.UndefinedVariable "x" 1)) ∧
    (executeBlock 9 c4St [c4Bad] 1).1.environment = 1 ∧
    c4St.environment = 0 ∧
    (executeBlock 9 c4St [c4Bad] 1).1.environment ≠ c4St.environment := by
  refine ⟨rfl, rfl, rfl, ?_⟩
  decide

/-- On every `Ok` outcome (fall-through or `return`-propagation) the
statement loop of `execute_block` has restored the saved handle. -/
lemma executeBlockGo_ok_environment :
    ∀ (fuel prev : Nat) (st : Interpreter) (stmts : List Statement) (fl : Flow),
      (executeBlockGo fuel prev st stmts).2 = .ok fl →
      (executeBlockGo fuel prev st stmts).1.environment = prev := by
  intro fuel
  induction fuel with
  | zero =>
      intro prev st stmts fl h
      simp [executeBlockGo] at h
  | succ n ih =>
      intro prev st stmts fl h
      cases stmts with
      | nil => simp [executeBlockGo]
      | cons s rest =>
          simp only [executeBlockGo] at h ⊢
          rcases hx : execute n st s with ⟨st1, r⟩
          rw [hx] at h
          cases r with
          | error e => exact Except.noConfusion h
          | ok fl2 =>
              cases fl2 with
              | Break v => rfl
              | Continue => exact ih prev st1 rest fl h

/-- C4 (amended): whenever `execute_block` finishes with an `Ok` — normal
completion or propagation of a `return` signal — the interpreter's
current-environment handle equals the handle it held before; (the runtime
error path, per the counterexample, leaves the inner handle in place). -/
theorem c4_env_restored_on_ok (fuel : Nat) (st : Interpreter)
    (stmts : List Statement) (env : Nat) (fl : Flow)
    (h : (executeBlock fuel st stmts env).2 = .ok fl) :
    (executeBlock fuel st stmts env).1.environment = st.environment := by
  cases fuel with
  | zero => simp [executeBlock] at h
  | succ n =>
      simp only [executeBlock] at h ⊢
      exact executeBlockGo_ok_environment n st.environment _ stmts fl h

/-- Witness for C4's amended theorem: a block that prints and completes
normally restores the handle. -/
theorem c4_env_restored_on_ok_witness :
    (executeBlock 9 c4St [Statement.Print (.Literal (.Number 1))] 1).1.environment
      = c4St.environment :=
  c4_env_restored_on_ok 9 c4St [Statement.Print (.Literal (.Number 1))] 1 .Continue rfl

/-- C5 (confirmed): a call of an initializer (a `LoxFunction` with
`is_initializer` true) that returns `Ok` yields exactly the `this`
binding stored at depth 0 of the function's closure
(`closure.get_at(0, "this")`), whatever control flow the body took —
normal completion and a bare `return;` both reach the same
`is_initializer` branch after `execute_block`; and a class call that
returns `Ok` always yields the instance freshly allocated at the start of
the call. -/
theorem c5_initializer_returns_this :
    (∀ (fuel : Nat) (st : Interpreter) (f : LoxFunction) (args : List Literal)
        (st' : Interpreter) (v : Literal),
        f.is_initializer = true →
        funCall fuel st f args = (st', .ok v) →
        v = Environment.get_from_local st'.envs f.closure THIS_KEYWORD) ∧
    (∀ (fuel : Nat) (st : Interpreter) (k : LoxClass) (args : List Literal)
        (st' : Interpreter) (v : Literal),
        classCall fuel st k args = (st', .ok v) →
        v = .Instance st.insts.length) := by
  constructor
  · intro fuel st f args st' v hinit h
    cases fuel with
    | zero => exact Except.noConfusion (congrArg Prod.snd h)
    | succ n =>
        simp only [funCall, Environment.new_enclosed] at h
        split at h
        next st3 er heq => exact Except.noConfusion (congrArg Prod.snd h)
        next st3 res heq =>
          simp only [hinit, if_true, Environment.get_at, Environment.ancestor] at h
          injection h with h1 h2
          subst h1
          injection h2 with h2
          exact h2.symm
  · intro fuel st k args st' v h
    cases fuel with
    | zero => exact Except.noConfusion (congrArg Prod.snd h)
    | succ n =>
        simp only [classCall, instAlloc, LoxFunction.bind,
          Environment.new_enclosed] at h
        split at h
        next initFn heq =>
          split at h
          next stf er heq2 => exact Except.noConfusion (congrArg Prod.snd h)
          next stf rv heq2 =>
            injection h with h1 h2
            injection h2 with h2
            exact h2.symm
        next heq =>
          injection h with h1 h2
          injection h2 with h2
          exact h2.symm

/-- Witness for C5: calling the bound initializer of
`class K { init() { return; } }` — whose body is a bare `return;` — yields
the bound instance (address 0), which is the `this` stored at depth 0 of
its closure; and calling `K` itself yields the freshly allocated
instance 0. -/
theorem c5_initializer_returns_this_witness :
    Literal.Instance 0
      = Environment.get_from_local (funCall 9 c5StF c5Fn []).1.envs c5Fn.closure
          THIS_KEYWORD ∧
    Literal.Instance 0 = Literal.Instance Interpreter.new.insts.length := by
  constructor
  · exact c5_initializer_returns_this.1 9 c5StF c5Fn [] (funCall 9 c5StF c5Fn []).1
      (Literal.Instance 0) rfl rfl
  · exact c5_initializer_returns_this.2 9 Interpreter.new c5ClassK []
      (classCall 9 Interpreter.new c5ClassK []).1 (Literal.Instance 0) rfl

/-- The accumulator form of `resolve_local`'s scope loop computes the
spec's depth, offset by the starting counter. -/
lemma resolveLocalGo_spec (locals : List (Nat × Nat)) (id : Nat) (lexeme : String) :
    ∀ (l : List (List (String × Bool))) (start : Nat),
      resolveLocalGo locals id lexeme start l =
        match depthFromInnermost lexeme l with
        | some d => insertTable locals id (start + d)
        | none => locals := by
  intro l
  induction l with
  | nil => intro start; rfl
  | cons scope rest ih =>
      intro start
      simp only [resolveLocalGo, depthFromInnermost]
      by_cases hc : (lookupAssoc scope lexeme).isSome
      · simp [hc]
      · simp only [hc, if_false, ih (start + 1), Bool.false_eq_true]
        cases hd : depthFromInnermost lexeme rest with
        | none => simp
        | some d =>
            simp only [Option.map_some']
            have harith : start + 1 + d = start + (d + 1) := by omega
            rw [harith]

/-- A recorded spec depth is an index into the scope stack. -/
lemma depthFromInnermost_lt (lexeme : String) :
    ∀ (l : List (List (String × Bool))) (d : Nat),
      depthFromInnermost lexeme l = some d → d < l.length := by
  intro l
  induction l with
  | nil => intro d h; exact Option.noConfusion h
  | cons scope rest ih =>
      intro d h
      simp only [depthFromInnermost] at h
      by_cases hc : (lookupAssoc scope lexeme).isSome
      · rw [if_pos hc] at h
        injection h with h
        subst h
        exact Nat.succ_pos rest.length
      · rw [if_neg hc] at h
        cases hrest : depthFromInnermost lexeme rest with
        | none => rw [hrest] at h; exact Option.noConfusion h
        | some d0 =>
            rw [hrest] at h
            simp only [Option.map_some'] at h
            injection h with h
            subst h
            have := ih d0 hrest
            simp only [List.length_cons]
            omega

/-- C6 (confirmed): `resolve_local` records, for an expression id, exactly
the spec depth — the number of scopes between the innermost scope and the
nearest scope containing the name (0 = innermost) — into the resolution
table, and records nothing when no scope on the stack contains the name;
any recorded depth is below the stack height (in particular non-negative,
the table being a map holds at most one depth per id); and
`lookup_variable` on an id absent from the table reads the name from the
globals environment. -/
theorem c6_resolution_depth_and_global_fallback :
    (∀ (locals : List (Nat × Nat)) (scopes : List (List (String × Bool)))
        (id : Nat) (lexeme : String),
        resolveLocal locals scopes id lexeme =
          match depthFromInnermost lexeme scopes.reverse with
          | some d => insertTable locals id d
          | none => locals) ∧
    (∀ (scopes : List (List (String × Bool))) (lexeme : String) (d : Nat),
        depthFromInnermost lexeme scopes.reverse = some d → d < scopes.length) ∧
    (∀ (st : Interpreter) (id : Nat) (name : Token),
        lookupTable st.locals id = none →
        lookupVariable st id name = Environment.get st.envs st.globals name) := by
  refine ⟨?_, ?_, ?_⟩
  · intro locals scopes id lexeme
    have h := resolveLocalGo_spec locals id lexeme scopes.reverse 0
    simpa [resolveLocal] using h
  · intro scopes lexeme d h
    have := depthFromInnermost_lt lexeme scopes.reverse d h
    simpa using this
  · intro st id name h
    simp [lookupVariable, h]

/-- Witness for C6: with stack `[{a}, {b}]` (so `b` innermost), `a`
resolves at depth 1; an id absent from the table falls back to the global
lookup. -/
theorem c6_resolution_depth_and_global_fallback_witness :
    resolveLocal [] [[("a", true)], [("b", true)]] 7 "a" = insertTable [] 7 1 ∧
    lookupVariable { Interpreter.new with locals := [] } 5 (tok .IDENTIFIER "zz")
      = Environment.get Interpreter.new.envs Interpreter.new.globals
          (tok .IDENTIFIER "zz") := by
  constructor
  · exact (c6_resolution_depth_and_global_fallback.1 [] [[("a", true)], [("b", true)]]
      7 "a").trans rfl
  · exact c6_resolution_depth_and_global_fallback.2.2
      { Interpreter.new with locals := [] } 5 (tok .IDENTIFIER "zz") rfl

/-- C7 (counterexample): evaluating `"a" + 1` fails with the type error
whose message is `constants.rs`'s `Operands must be numbers or strings.` —
not the claimed `Operands must be two numbers or two strings.`. -/
theorem c7_plus_error_message_counterexample :
    (evaluate 5 Interpreter.new
        (.Binary (.Literal (.String "a")) plusTok (.Literal (.Number 1)))).2
      = .error (.lox (.TypeError OPERANDS_MUST_BE_NUMBERS_OR_STRINGS)) ∧
    OPERANDS_MUST_BE_NUMBERS_OR_STRINGS
      ≠ "Operands must be two numbers or two strings." := by
  refine ⟨rfl, ?_⟩
  decide

/-- C8-style Boolean classifiers used to state the C7 side conditions. -/
def Literal.isNumber : Literal → Bool
  | .Number _ => true
  | _ => false

/-- String classifier for the C7 side conditions. -/
def Literal.isString : Literal → Bool
  | .String _ => true
  | _ => false

/-- C7 (amended): a `PLUS` whose operands are neither both numbers nor
both strings fails with exactly `TypeError "Operands must be numbers or
strings."` (the code's message; the claim's wording "two numbers or two
strings" does not occur), leaving the state as it was after the operand
evaluations; and the enclosing `print` statement of two such literals
errs with that message and prints nothing (the state — its output
included — is unchanged). -/
theorem c7_plus_type_error (fuel : Nat) (st0 : Interpreter) (l r : Literal)
    (op : Token)
    (hop : op.token_type = TokenType.PLUS)
    (hn : (l.isNumber && r.isNumber) = false)
    (hs : (l.isString && r.isString) = false) :
    (∀ (fuelE : Nat) (st st1 st2 : Interpreter) (leftE rightE : Expression),
        evaluate fuelE st leftE = (st1, .ok l) →
        evaluate fuelE st1 rightE = (st2, .ok r) →
        evaluate (fuelE + 1) st (.Binary leftE op rightE)
          = (st2, .error (.lox (.TypeError OPERANDS_MUST_BE_NUMBERS_OR_STRINGS)))) ∧
    execute (fuel + 3) st0 (.Print (.Binary (.Literal l) op (.Literal r)))
      = (st0, .error (.lox (.TypeError OPERANDS_MUST_BE_NUMBERS_OR_STRINGS))) := by
  have key : ∀ (fuelE : Nat) (st st1 st2 : Interpreter) (leftE rightE : Expression),
      evaluate fuelE st leftE = (st1, .ok l) →
      evaluate fuelE st1 rightE = (st2, .ok r) →
      evaluate (fuelE + 1) st (.Binary leftE op rightE)
        = (st2, .error (.lox (.TypeError OPERANDS_MUST_BE_NUMBERS_OR_STRINGS))) := by
    intro fuelE st st1 st2 leftE rightE h1 h2
    simp only [evaluate, h1, h2, hop]
    cases l <;> cases r <;>
      simp_all [Literal.isNumber, Literal.isString]
  constructor
  · exact key
  · have hb := key (fuel + 1) st0 st0 st0 (.Literal l) (.Literal r) rfl rfl
    simp only [execute, hb]

/-- Witness for C7's amended theorem: `print "a" + 1;` errs with the
code's message and changes nothing. -/
theorem c7_plus_type_error_witness :
    execute 8 Interpreter.new
        (.Print (.Binary (.Literal (.String "a")) plusTok (.Literal (.Number 1))))
      = (Interpreter.new,
         .error (.lox (.TypeError OPERANDS_MUST_BE_NUMBERS_OR_STRINGS))) :=
  (c7_plus_type_error 5 Interpreter.new (.String "a") (.Number 1) plusTok
    rfl rfl rfl).2

/-- C8 (confirmed): once the callee has evaluated to a user function (or a
class) and the arguments have evaluated to `vs`, a length mismatch with
the arity yields exactly `ArgumentCountError` — rendered `Expected N
arguments but got M.` — with the state left as it was after argument
evaluation (the body is never entered); a matching length proceeds
straight into `LoxFunction::call` (resp. `LoxClass::call`) with no arity
error at this call site. -/
theorem c8_arity_check (fuel : Nat) (st st1 st2 : Interpreter)
    (callee : Expression) (args : List Expression) (vs : List Literal)
    (hargs : evalArgs fuel st1 args = (st2, .ok vs)) :
    (∀ f : LoxFunction,
        evaluate fuel st callee = (st1, .ok (.Function (.Fn f))) →
        (vs.length ≠ f.declaration.params.length →
          evaluate (fuel + 1) st (.Call callee args)
            = (st2, .error (.lox (.ArgumentCountError f.declaration.params.length
                vs.length)))) ∧
        (vs.length = f.declaration.params.length →
          evaluate (fuel + 1) st (.Call callee args) = funCall fuel st2 f vs)) ∧
    (∀ k : LoxClass,
        evaluate fuel st callee = (st1, .ok (.Class k)) →
        (vs.length ≠ k.arity →
          evaluate (fuel + 1) st (.Call callee args)
            = (st2, .error (.lox (.ArgumentCountError k.arity vs.length)))) ∧
        (vs.length = k.arity →
          evaluate (fuel + 1) st (.Call callee args) = classCall fuel st2 k vs)) ∧
    (∀ n m : Nat, (LoxError.ArgumentCountError n m).display
        = "Expected " ++ toString n ++ " arguments but got " ++ toString m ++ ".") := by
  refine ⟨?_, ?_, ?_⟩
  · intro f hc
    constructor
    · intro hne
      simp only [evaluate, hc, hargs, CallableV.arity, if_pos hne]
    · intro heq
      simp only [evaluate, hc, hargs, CallableV.arity]
      rw [if_neg (by omega)]
  · intro k hc
    constructor
    · intro hne
      simp only [evaluate, hc, hargs, if_pos hne]
    · intro heq
      simp only [evaluate, hc, hargs]
      rw [if_neg (by omega)]
  · intro n m
    rfl

/-- Witness for C8: calling the arity-1 function `g` with zero arguments
yields `ArgumentCountError 1 0` and leaves the fresh interpreter state
untouched. -/
theorem c8_arity_check_witness :
    evaluate 2 Interpreter.new (.Call c8Callee [])
      = (Interpreter.new, .error (.lox (.ArgumentCountError 1 0))) := by
  have h := ((c8_arity_check 1 Interpreter.new Interpreter.new Interpreter.new
      c8Callee [] [] rfl).1 c8Fn rfl).1 (by decide)
  exact h

/-- C9 (counterexample): the `run`-path `print 3;` writes the line `3` —
`Interpreter::execute`'s `Print` arm special-cases `Literal::Number` and
prints it with `f64`'s own `Display` (`println!("{n}")`), which elides the
claimed trailing `.0`. -/
theorem c9_print_integral_counterexample :
    (execute 5 Interpreter.new (.Print (.Literal (.Number 3)))).1.output = ["3"] ∧
    (execute 5 Interpreter.new (.Print (.Literal (.Number 3)))).2 = .ok .Continue ∧
    ("3" : String) ≠ "3.0" := by
  refine ⟨rfl, rfl, ?_⟩
  decide

/-- An integral rational truncates to its numerator. -/
lemma ratTrunc_of_den_one {q : ℚ} (hq : q.den = 1) : ratTrunc q = q.num := by
  simp [ratTrunc, hq, Int.tdiv_one]

/-- C9 (amended): a `print` of a `Number` renders it through `f64`'s own
`Display` — an integral value (denominator 1 in the rational model)
prints as its integer part with **no** trailing `.0` (the value 3 prints
as `3`), the statement completing normally with exactly that line
appended to stdout; the trailing-`.0` form for integral numbers belongs
to `Literal`'s `Display` implementation (`grammar.rs`), which the `run`
print path does not use for numbers. -/
theorem c9_print_number_amended (fuel : Nat) (st : Interpreter)
    (insts : List LoxInstance) (q : ℚ) (hq : q.den = 1) :
    execute (fuel + 2) st (.Print (.Literal (.Number q)))
      = ({ st with output := st.output ++ [toString q.num] }, .ok .Continue) ∧
    fmtF64 q = toString q.num ∧
    displayLiteral insts (.Number q) = toString q.num ++ ".0" := by
  have hfmt : fmtF64 q = toString q.num := by simp [fmtF64, hq]
  have htr : ratTrunc q = q.num := ratTrunc_of_den_one hq
  refine ⟨?_, hfmt, ?_⟩
  · simp only [execute, evaluate, hfmt]
  · have hcast : (ratTrunc q : ℚ) = q := by
      rw [htr]
      exact (Rat.den_eq_one_iff q).mp hq
    simp only [displayLiteral]
    rw [if_pos hcast, htr]

/-- Witness for C9's amended theorem: at `q = 3`, `print` emits `3` and
`Literal`'s `Display` renders `3.0`. -/
theorem c9_print_number_amended_witness :
    execute 7 Interpreter.new (.Print (.Literal (.Number 3)))
      = ({ Interpreter.new with
           output := Interpreter.new.output ++ [toString (3 : ℚ).num] },
         .ok .Continue) ∧
    fmtF64 3 = toString (3 : ℚ).num ∧
    displayLiteral [] (.Number 3) = toString (3 : ℚ).num ++ ".0" :=
  c9_print_number_amended 5 Interpreter.new [] 3 (by decide)

end Lox
